import Mathlib

/-!
# CtoAPi gateway: request translation, stream reframing, access gate, live log

A shallow embedding of the core of `main.go`:

* the message-history construction and system-prompt fold of `chatCompletions`;
* the line filters of `handleStreamResponse` and `aggregateStreamContent`, reading the
  backend body through `bufio.Scanner` (line splitting and the 64 KiB token limit);
* the bearer check of `authenticateClient` and the key loading of `loadClientAPIKeys`;
* the bounded log maintained by `addLiveRequest`;
* the counters and the running average of `recordRequestStats`;
* the handler `chatCompletions` as the sequence of calls it makes, behind the
  middleware of the `/v1` route group, with the treatment of the status code by
  `c.JSON` (a code that `WriteHeader` refuses ends the handler).

Go strings are embedded as Lean `String`s (valid UTF-8 text).  Values obtained
from the environment of the program (`uuid.New().String()`, `time.Now()`) are
passed in explicitly.
-/

namespace CtoAPi

/-! ## Data model -/

/-- Go `ChatMessage`. -/
structure ChatMessage where
  Role : String
  Content : String
  deriving DecidableEq, Repr

/-- Go `TalkAIMessage`. -/
structure TalkAIMessage where
  ID : String
  From : String
  Content : String
  deriving DecidableEq, Repr

/-! ## `chatCompletions`: message history and system-prompt fold -/

/-- The local variables mutated by the `for _, msg := range req.Messages` loop of
`chatCompletions`, together with the number of `uuid.New()` calls made so far. -/
structure HistoryState where
  messagesHistory : List TalkAIMessage
  systemPrompt : String
  uuidCalls : Nat
  deriving DecidableEq, Repr

/-- One iteration of the loop body (main.go 405-419).  `uuid k` is the string
returned by the `k`-th call of `uuid.New().String()`. -/
def historyStep (uuid : Nat → String) (st : HistoryState) (msg : ChatMessage) : HistoryState :=
  if msg.Role = "system" then
    { st with systemPrompt := msg.Content }
  else if msg.Role = "user" ∨ msg.Role = "assistant" then
    let from0 := "you"
    let from1 := if msg.Role = "assistant" then "assistant" else from0
    { st with
      messagesHistory := st.messagesHistory ++
        [{ ID := uuid st.uuidCalls, From := from1, Content := msg.Content }]
      uuidCalls := st.uuidCalls + 1 }
  else
    st

/-- The whole loop, started from `messagesHistory := []`, `systemPrompt := ""`. -/
def historyLoop (uuid : Nat → String) (messages : List ChatMessage) : HistoryState :=
  messages.foldl (historyStep uuid) { messagesHistory := [], systemPrompt := "", uuidCalls := 0 }

/-- Assignment `messagesHistory[len(messagesHistory)-1].Content = v`. -/
def setLastContent (h : List TalkAIMessage) (v : String) : List TalkAIMessage :=
  match h.getLast? with
  | none => h
  | some e => h.dropLast ++ [{ e with Content := v }]

/-- The fold of main.go 422-424: `fmt.Sprintf("%s\n\n%s", systemPrompt, last.Content)`
written into the last entry when `systemPrompt != ""`, the history is non-empty and
its last entry has `From == "you"`. -/
def foldSystemPrompt (st : HistoryState) : List TalkAIMessage :=
  match st.messagesHistory.getLast? with
  | none => st.messagesHistory
  | some e =>
    if st.systemPrompt ≠ "" ∧ e.From = "you" then
      setLastContent st.messagesHistory (st.systemPrompt ++ "\n\n" ++ e.Content)
    else
      st.messagesHistory

/-- The `MessagesHistory` field of the backend request built by `chatCompletions`
(main.go 401-424). -/
def messagesHistory (uuid : Nat → String) (messages : List ChatMessage) : List TalkAIMessage :=
  foldSystemPrompt (historyLoop uuid messages)

/-! ## Go library functions used by the stream handlers and the access gate -/

/-- Go `unicode.IsSpace`: the Latin-1 spaces `\t \n \v \f \r`, space, U+0085, U+00A0,
and the other code points with the Unicode White_Space property. -/
def isSpace (c : Char) : Bool :=
  let n := c.toNat
  (9 ≤ n && n ≤ 13) || n = 0x20 || n = 0x85 || n = 0xA0 || n = 0x1680 ||
  (0x2000 ≤ n && n ≤ 0x200A) || n = 0x2028 || n = 0x2029 || n = 0x202F ||
  n = 0x205F || n = 0x3000

/-- Go `strings.TrimSpace`: the string without its leading and trailing white space. -/
def TrimSpace (s : String) : String :=
  String.mk ((s.data.dropWhile isSpace).reverse.dropWhile isSpace).reverse

/-- Go `strings.HasPrefix`. -/
def HasPrefix (s p : String) : Bool :=
  p.data.isPrefixOf s.data

/-- Go slicing `s[n:]` for an `n` that falls on a character boundary (here `n = 5`
after the ASCII prefix `data:` has been checked). -/
def sliceFrom (s : String) (n : Nat) : String :=
  String.mk (s.data.drop n)

/-- Go `strings.Split(s, sep)` for a one-character separator, on the characters. -/
def splitChars (sep : Char) : List Char → List (List Char)
  | [] => [[]]
  | c :: cs =>
    if c = sep then
      [] :: splitChars sep cs
    else
      match splitChars sep cs with
      | [] => [[c]]
      | p :: ps => (c :: p) :: ps

/-- Go `strings.Split(s, sep)` for a one-character separator. -/
def Split (s : String) (sep : Char) : List String :=
  (splitChars sep s.data).map String.mk

/-! ## Reading the backend body: `bufio.Scanner`

Both stream handlers read `resp.Body` through `bufio.NewScanner(resp.Body)` with the default
split function `ScanLines` and the default token limit, and never look at `scanner.Err()`:
the loop `for scanner.Scan()` ends at the end of the body and also at the first line that
does not fit the buffer. -/

/-- Go `bufio.MaxScanTokenSize`, the largest buffer a default `Scanner` allocates. -/
def MaxScanTokenSize : Nat := 64 * 1024

/-- The number of bytes of a text (UTF-8). -/
def byteLen (cs : List Char) : Nat :=
  (cs.map Char.utf8Size).sum

/-- The body of the backend response as a handler reads it: its bytes (valid UTF-8 text),
and whether the reader reports `io.EOF` together with the last bytes (as net/http does
for a body of known length) instead of on a later `Read`. -/
structure ResponseBody where
  data : String
  eofWithData : Bool
  deriving DecidableEq, Repr

/-- Go `dropCR` of package bufio: one trailing carriage return is dropped. -/
def dropCR (data : List Char) : List Char :=
  if data.getLast? = some (Char.ofNat 13) then data.dropLast else data

/-- The tokens that `scanner.Scan()` delivers until it returns `false`, from the body
split at its newlines.  Every segment but the last is a line terminated by a newline:
it is delivered when it fits the buffer together with its newline, and otherwise the
scanner stops with `ErrTooLong`.  The last segment is what follows the last newline: when
it is empty there is no further token; it is delivered when it is shorter than the
buffer, or fills the buffer exactly and the end of the body is reported with its bytes;
otherwise the scanner stops with `ErrTooLong`. -/
def scanSegments (eofWithData : Bool) : List (List Char) → List (List Char)
  | [] => []
  | [last] =>
    if last = [] then []
    else if byteLen last < MaxScanTokenSize
        ∨ (byteLen last = MaxScanTokenSize ∧ eofWithData = true) then [dropCR last]
    else []
  | seg :: rest =>
    if byteLen seg < MaxScanTokenSize then dropCR seg :: scanSegments eofWithData rest
    else []

/-- The values of `scanner.Text()` over the loop `for scanner.Scan()` on a body. -/
def scanLines (body : ResponseBody) : List String :=
  (scanSegments body.eofWithData (splitChars (Char.ofNat 10) body.data.data)).map String.mk

/-! ## Stream reframing: `handleStreamResponse` and `aggregateStreamContent` -/

/-- Go `StreamChoice`; `Delta` is the `map[string]interface{}` as its key/value pairs
(all values stored by the program are strings), `FinishReason` the `*string`. -/
structure StreamChoice where
  Delta : List (String × String)
  Index : Int
  FinishReason : Option String
  deriving DecidableEq, Repr

/-- Go `StreamResponse`. -/
structure StreamResponse where
  ID : String
  Object : String
  Created : Int
  Model : String
  Choices : List StreamChoice
  deriving DecidableEq, Repr

/-- What one `fmt.Fprintf(w, "data: ...\n\n")` carries after `data: `: the JSON encoding of
a chunk, or a literal text. -/
inductive SSEData where
  | json (r : StreamResponse)
  | text (s : String)
  deriving DecidableEq, Repr

/-- An operation on the client connection. -/
inductive Output where
  | write (d : SSEData)
  | flush
  deriving DecidableEq, Repr

/-- Body of the `for scanner.Scan()` loop of `handleStreamResponse` (main.go 560-583);
`out` is the trace of operations performed so far. -/
def streamLine (streamID : String) (createdTime : Int) (model : String)
    (out : List Output) (line : String) : List Output :=
  if HasPrefix line "data:" then
    let content := TrimSpace (sliceFrom line 5)
    if content ≠ "" ∧ content ≠ "-1" then
      let choice : StreamChoice :=
        { Delta := [("content", content)], Index := 0, FinishReason := none }
      let streamResp : StreamResponse :=
        { ID := streamID, Object := "chat.completion.chunk", Created := createdTime,
          Model := model, Choices := [choice] }
      out ++ [Output.write (SSEData.json streamResp), Output.flush]
    else
      out
  else
    out

/-- The trace of writes and flushes made by the step function that `handleStreamResponse`
hands to `c.Stream` (main.go 551-608), which returns `false` and therefore runs once,
when the scanner delivers `lines`.  `uuid` is the value of `uuid.New().String()`, `now`
that of `time.Now().Unix()`. -/
def streamTrace (uuid : String) (now : Int) (model : String)
    (lines : List String) : List Output :=
  let streamID := "chatcmpl-" ++ uuid
  let createdTime := now
  let initialChoice : StreamChoice :=
    { Delta := [("role", "assistant")], Index := 0, FinishReason := none }
  let initialResp : StreamResponse :=
    { ID := streamID, Object := "chat.completion.chunk", Created := createdTime,
      Model := model, Choices := [initialChoice] }
  let out0 := [Output.write (SSEData.json initialResp), Output.flush]
  let out1 := lines.foldl (streamLine streamID createdTime model) out0
  let finishReason := "stop"
  let finalChoice : StreamChoice :=
    { Delta := [], Index := 0, FinishReason := some finishReason }
  let finalResp : StreamResponse :=
    { ID := streamID, Object := "chat.completion.chunk", Created := createdTime,
      Model := model, Choices := [finalChoice] }
  out1 ++ [Output.write (SSEData.json finalResp), Output.write (SSEData.text "[DONE]"),
    Output.flush]

/-- Body of the `for scanner.Scan()` loop of `aggregateStreamContent` (main.go 616-622);
`content` is the `strings.Builder`. -/
def aggregateLine (content : String) (line : String) : String :=
  if HasPrefix line "data:" then
    let data := TrimSpace (sliceFrom line 5)
    if data ≠ "" ∧ data ≠ "-1" then content ++ data else content
  else
    content

/-- The loop of `aggregateStreamContent` (main.go 615-625) when the scanner delivers
`lines`. -/
def aggregateLines (lines : List String) : String :=
  lines.foldl aggregateLine ""

/-- Go `handleStreamResponse` (main.go 526-609) on the body of the backend response. -/
def handleStreamResponse (uuid : String) (now : Int) (model : String)
    (body : ResponseBody) : List Output :=
  streamTrace uuid now model (scanLines body)

/-- Go `aggregateStreamContent` (main.go 611-626) on the body of the backend response. -/
def aggregateStreamContent (body : ResponseBody) : String :=
  aggregateLines (scanLines body)

/-- The data of the write operations of a trace, in order. -/
def writes (out : List Output) : List SSEData :=
  out.filterMap fun o =>
    match o with
    | Output.write d => some d
    | Output.flush => none

/-- The value stored under `key` in a delta map. -/
def deltaValue (delta : List (String × String)) (key : String) : Option String :=
  (delta.find? fun kv => kv.1 = key).map Prod.snd

/-- The `content` values carried by the chunks written in a trace, in emission order. -/
def deltaContents (out : List Output) : List String :=
  (writes out).flatMap fun d =>
    match d with
    | SSEData.json r => r.Choices.filterMap fun c => deltaValue c.Delta "content"
    | SSEData.text _ => []

/-! ## Access gate: `authenticateClient` -/

/-- Outcome of the middleware: `c.Next()`, or `c.JSON(status, gin.H{"error": error})`
followed by `c.Abort()`. -/
inductive Gate where
  | next
  | abort (status : Int) (error : String)
  deriving DecidableEq, Repr

/-- Gin `c.GetHeader`: the empty string when the header is missing. -/
def GetHeader (header : Option String) : String :=
  header.getD ""

/-- Go `authenticateClient` (main.go 238-268).  `validClientKeys` lists the keys of the
global `map[string]bool` (the program only ever stores `true` in it), `authorization`
is the `Authorization` header of the request, if any. -/
def authenticateClient (validClientKeys : List String) (authorization : Option String) : Gate :=
  if validClientKeys.length = 0 then
    Gate.next
  else
    let authHeader := GetHeader authorization
    if authHeader = "" then
      Gate.abort 401 "Missing authorization header"
    else
      let parts := Split authHeader (Char.ofNat 32)
      if parts.length ≠ 2 ∨ parts[0]? ≠ some "Bearer" then
        Gate.abort 401 "Invalid authorization format"
      else
        let token := parts.getD 1 ""
        if ¬ token ∈ validClientKeys then
          Gate.abort 401 "Invalid API key"
        else
          Gate.next

/-! ## Live request log: `addLiveRequest` -/

/-- Go `LiveRequest`; `Timestamp` in nanoseconds since the epoch. -/
structure LiveRequest where
  ID : String
  Timestamp : Int
  Method : String
  Path : String
  Status : Int
  Duration : Int
  UserAgent : String
  deriving DecidableEq, Repr

/-- The arguments of one call of `addLiveRequest`, with the two readings of `time.Now()`
made during the call (`now1` for the ID, `now2` for the timestamp), in nanoseconds. -/
structure LiveCall where
  now1 : Int
  now2 : Int
  method : String
  path : String
  status : Int
  duration : Int
  unused : String
  userAgent : String
  deriving DecidableEq, Repr

/-- Go `time.Duration.Milliseconds`: integer division by 1e6, truncated towards zero. -/
def Milliseconds (d : Int) : Int :=
  Int.tdiv d 1000000

/-- The record built at main.go 300-308. -/
def mkLiveRequest (call : LiveCall) : LiveRequest :=
  { ID := toString call.now1
    Timestamp := call.now2
    Method := call.method
    Path := call.path
    Status := call.status
    Duration := Milliseconds call.duration
    UserAgent := call.userAgent }

/-- Initial value of the global `liveRequests` (main.go 132). -/
def liveRequestsInit : List LiveRequest := []

/-- Go `addLiveRequest` (main.go 296-316) as a transformer of the global `liveRequests`. -/
def addLiveRequest (liveRequests : List LiveRequest) (call : LiveCall) : List LiveRequest :=
  let request := mkLiveRequest call
  let liveRequests1 := liveRequests ++ [request]
  if liveRequests1.length > 100 then liveRequests1.drop 1 else liveRequests1

/-- The log after a sequence of calls of `addLiveRequest`, starting from `log`. -/
def addLiveRequests (log : List LiveRequest) (calls : List LiveCall) : List LiveRequest :=
  calls.foldl addLiveRequest log

/-! ## Request statistics: `recordRequestStats`

The three counters are `int64` fields incremented once per recorded call; they are taken as
mathematical integers (a run cannot reach 2^63 increments).  The latency arithmetic, whose
product can exceed 63 bits, wraps as `int64` arithmetic does. -/

/-- Two's-complement reduction of a mathematical integer to the `int64` range. -/
def wrap64 (x : Int) : Int :=
  (x + 9223372036854775808) % 18446744073709551616 - 9223372036854775808

/-- Go `RequestStats`.  `LastRequestTime` is `none` for the zero `time.Time`, otherwise the
reading of `time.Now()` in nanoseconds; `AverageResponseTime` is a `time.Duration`, an
`int64` count of nanoseconds. -/
structure RequestStats where
  TotalRequests : Int
  SuccessfulRequests : Int
  FailedRequests : Int
  LastRequestTime : Option Int
  AverageResponseTime : Int
  deriving DecidableEq, Repr

/-- Zero value of the global `stats` (main.go 131). -/
def statsInit : RequestStats :=
  { TotalRequests := 0, SuccessfulRequests := 0, FailedRequests := 0,
    LastRequestTime := none, AverageResponseTime := 0 }

/-- Go `recordRequestStats` (main.go 271-293) as a transformer of the global `stats`.
`since` is the value of `time.Since(startTime)` read at line 272 and `now` the value of
`time.Now()` read at line 278, both in nanoseconds. -/
def recordRequestStats (stats : RequestStats) (since now : Int) (_path : String)
    (status : Int) : RequestStats :=
  let duration := since
  let stats1 := { stats with TotalRequests := stats.TotalRequests + 1 }
  let stats2 := { stats1 with LastRequestTime := some now }
  let stats3 :=
    if status ≥ 200 ∧ status < 300 then
      { stats2 with SuccessfulRequests := stats2.SuccessfulRequests + 1 }
    else
      { stats2 with FailedRequests := stats2.FailedRequests + 1 }
  if stats3.TotalRequests > 0 then
    let totalDuration :=
      wrap64 (wrap64 (stats3.AverageResponseTime * (stats3.TotalRequests - 1)) + duration)
    { stats3 with AverageResponseTime := Int.tdiv totalDuration stats3.TotalRequests }
  else
    { stats3 with AverageResponseTime := duration }

/-- The environment readings and arguments of one call of `recordRequestStats`. -/
structure StatsCall where
  since : Int
  now : Int
  path : String
  status : Int
  deriving DecidableEq, Repr

/-- The statistics after a sequence of calls of `recordRequestStats`, starting from
`stats`. -/
def recordRequests (stats : RequestStats) (calls : List StatsCall) : RequestStats :=
  calls.foldl (fun st c => recordRequestStats st c.since c.now c.path c.status) stats

/-! ## Startup key loading: `loadClientAPIKeys` -/

/-- Assignment `validClientKeys[key] = true` on the key list of the map. -/
def setKey (validClientKeys : List String) (key : String) : List String :=
  if key ∈ validClientKeys then validClientKeys else validClientKeys ++ [key]

/-- Go `loadClientAPIKeys` (main.go 206-223) as a transformer of the global
`validClientKeys`; `apiKeys` is `config.APIKeys` and `uuid` the value of
`uuid.New().String()` used for the generated default key. -/
def loadClientAPIKeys (apiKeys : List String) (uuid : String)
    (validClientKeys : List String) : List String :=
  if apiKeys.length > 0 then
    apiKeys.foldl (fun keys key => if key ≠ "" then setKey keys key else keys) validClientKeys
  else
    let defaultKey := "sk-talkai-" ++ uuid
    setKey validClientKeys defaultKey

/-- Initial value of the global `validClientKeys` (main.go 129). -/
def validClientKeysInit : List String := []

/-! ## The handler `chatCompletions` and the `/v1` route group

A handler is embedded as the sequence of calls it makes on its context and on the
globals; the effect of that sequence on the globals is given by `runCalls`. -/

/-- A `float64`, identified by its IEEE-754 bit pattern; the program only copies such
values. -/
structure Float64 where
  bits : Nat
  deriving DecidableEq, Repr

/-- The literal `0.7` of main.go 438. -/
def lit07 : Float64 := ⟨0x3FE6666666666666⟩

/-- Go `Config`. -/
structure Config where
  Port : Int
  APIKeys : List String
  DefaultStream : Bool
  DefaultModel : String
  DefaultTemp : Float64
  Timeout : Int
  DebugMode : Bool
  DashboardEnabled : Bool
  deriving DecidableEq, Repr

/-- Go `ChatCompletionRequest`; `Temperature` is the `*float64`, `none` for `nil`. -/
structure ChatCompletionRequest where
  Model : String
  Messages : List ChatMessage
  Stream : Bool
  Temperature : Option Float64
  deriving DecidableEq, Repr

/-- The `Settings` map of a `TalkAIRequest`, which is always built with the two keys
`model` (a string) and `temperature` (a `*float64` or a `float64`; `none` is a nil
pointer). -/
structure Settings where
  model : String
  temperature : Option Float64
  deriving DecidableEq, Repr

/-- Go `TalkAIRequest`; `Type_` is the field `Type`. -/
structure TalkAIRequest where
  Type_ : String
  MessagesHistory : List TalkAIMessage
  Settings : Settings
  deriving DecidableEq, Repr

/-- Go `ChatCompletionChoice`. -/
structure ChatCompletionChoice where
  Message : ChatMessage
  Index : Int
  FinishReason : String
  deriving DecidableEq, Repr

/-- Go `ChatCompletionResponse`; `Usage` is the `map[string]int` as its key/value pairs. -/
structure ChatCompletionResponse where
  ID : String
  Object : String
  Created : Int
  Model : String
  Choices : List ChatCompletionChoice
  Usage : List (String × Int)
  deriving DecidableEq, Repr

/-- What `sendToTalkAI` returns when it returns no error: the status code of the backend
response (the Go HTTP client reports the three characters of the status line, a number
from 0 to 999) and its body. -/
structure BackendResponse where
  StatusCode : Int
  Body : ResponseBody
  deriving DecidableEq, Repr

/-- A value passed to `c.JSON`: `gin.H{"error": msg}` or a completion response. -/
inductive Body where
  | error (msg : String)
  | completion (r : ChatCompletionResponse)
  deriving DecidableEq, Repr

/-- A call made by a handler: `c.JSON(status, body)`, `c.Stream` with the trace of its step
function, `sendToTalkAI(req)`, `recordRequestStats` and `addLiveRequest` with their
arguments and clock readings.  What `c.JSON` does with its status is given by
`JSONPanics`, `JSONStatus` and `bodyAllowedForStatus`. -/
inductive Call where
  | JSON (status : Int) (body : Body)
  | Stream (out : List Output)
  | sendToTalkAI (req : TalkAIRequest)
  | recordRequestStats (c : StatsCall)
  | addLiveRequest (c : LiveCall)
  deriving DecidableEq, Repr

/-- The part of the request that the handlers read: `c.Request.URL.Path`,
`c.Request.UserAgent()`, `c.Request.URL.Query()` (keys with their values), the
`Authorization` header, and the result of `c.ShouldBindJSON(&req)` (`none` when it
returns an error). -/
structure Inbound where
  Path : String
  UserAgent : String
  Query : List (String × List String)
  Authorization : Option String
  Body : Option ChatCompletionRequest
  deriving DecidableEq, Repr

/-- The clock readings made while one request is handled, in nanoseconds except
`created` (seconds): `since1` is `duration := time.Since(startTime)` in the handler,
`since2` and `statsNow` are read inside `recordRequestStats`, `logNow1` and `logNow2`
inside `addLiveRequest`, `created` is `time.Now().Unix()` in the response writers. -/
structure Clock where
  since1 : Int
  since2 : Int
  statsNow : Int
  logNow1 : Int
  logNow2 : Int
  created : Int
  deriving DecidableEq, Repr

/-- Package net/http, `checkWriteHeaderCode`: `WriteHeader` panics (`invalid WriteHeader
code`) for a code below 100 or above 999. -/
def invalidWriteHeaderCode (code : Int) : Bool :=
  decide (code < 100 ∨ code > 999)

/-- Whether `c.JSON(code, obj)` panics instead of returning.  Gin's response writer drops
a code that is not positive; any other code reaches `WriteHeader` of net/http when the
body is written. -/
def JSONPanics (code : Int) : Bool :=
  decide (0 < code) && invalidWriteHeaderCode code

/-- The status that gin's response writer holds and passes to `WriteHeader` after
`c.JSON(code, obj)`: the code when it is positive, else the default `http.StatusOK`. -/
def JSONStatus (code : Int) : Int :=
  if 0 < code then code else 200

/-- Gin `bodyAllowedForStatus`: `c.JSON` writes no body for the codes 100 to 199, 204
and 304. -/
def bodyAllowedForStatus (status : Int) : Bool :=
  if 100 ≤ status ∧ status ≤ 199 then false
  else if status = 204 then false
  else if status = 304 then false
  else true

/-- The statements of a handler that follow a call `c.JSON(code, obj)`: they run only when
that call returns.  (What gin's recovery middleware answers after a panic is outside the
handler.) -/
def afterJSON (code : Int) (rest : List Call) : List Call :=
  if JSONPanics code = true then [] else rest

/-- Go `url.Values.Get`: the first value of the key, or the empty string when the key is
absent or has no value. -/
def QueryGet (v : List (String × List String)) (key : String) : String :=
  match v.find? fun kv => kv.1 = key with
  | none => ""
  | some kv => kv.2.headD ""

/-- The defaults applied to the parsed request (main.go 387-399). -/
def applyDefaults (config : Config) (query : List (String × List String))
    (req : ChatCompletionRequest) : ChatCompletionRequest :=
  let req1 := if req.Model = "" then { req with Model := config.DefaultModel } else req
  let req2 :=
    if req1.Temperature = none then { req1 with Temperature := some config.DefaultTemp }
    else req1
  if QueryGet query "stream" = "" ∧ ¬ req2.Stream = true then
    { req2 with Stream := config.DefaultStream }
  else
    req2

/-- The backend request built from the request after defaults (main.go 401-439). -/
def buildTalkAIRequest (uuid : Nat → String) (req : ChatCompletionRequest) : TalkAIRequest :=
  let talkAIReq : TalkAIRequest :=
    { Type_ := "chat"
      MessagesHistory := messagesHistory uuid req.Messages
      Settings := { model := req.Model, temperature := req.Temperature } }
  if req.Temperature = none then
    { talkAIReq with Settings := { talkAIReq.Settings with temperature := some lit07 } }
  else
    talkAIReq

/-- Go `handleNormalResponse` (main.go 496-524): the `c.JSON(http.StatusOK, response)` it
ends with. -/
def handleNormalResponse (uuid : String) (now : Int) (model : String)
    (body : ResponseBody) : Call :=
  let content := aggregateStreamContent body
  let response : ChatCompletionResponse :=
    { ID := "chatcmpl-" ++ uuid
      Object := "chat.completion"
      Created := now
      Model := model
      Choices := [{ Message := { Role := "assistant", Content := content }, Index := 0,
                    FinishReason := "stop" }]
      Usage := [("prompt_tokens", 0), ("completion_tokens", 0), ("total_tokens", 0)] }
  Call.JSON 200 (Body.completion response)

/-- The three statements that end every path of `chatCompletions`:
`duration := time.Since(startTime)`, `recordRequestStats(startTime, path, status)`,
`addLiveRequest("POST", path, status, duration, "", userAgent)`. -/
def recordOutcome (clock : Clock) (path userAgent : String) (status : Int) : List Call :=
  let duration := clock.since1
  [Call.recordRequestStats
      { since := clock.since2, now := clock.statsNow, path := path, status := status },
    Call.addLiveRequest
      { now1 := clock.logNow1, now2 := clock.logNow2, method := "POST", path := path,
        status := status, duration := duration, unused := "", userAgent := userAgent }]

/-- Go `chatCompletions` (main.go 363-475).  `backend` gives what `sendToTalkAI` returns
for a request (`none` when it returns an error); `uuid k` is the `k`-th generated
identifier of this call. -/
def chatCompletions (config : Config) (backend : TalkAIRequest → Option BackendResponse)
    (uuid : Nat → String) (clock : Clock) (c : Inbound) : List Call :=
  let path := c.Path
  let userAgent := c.UserAgent
  match c.Body with
  | none =>
    [Call.JSON 400 (Body.error "Invalid request body")]
      ++ afterJSON 400 (recordOutcome clock path userAgent 400)
  | some req0 =>
    if req0.Messages.length = 0 then
      [Call.JSON 400 (Body.error "Messages required")]
        ++ afterJSON 400 (recordOutcome clock path userAgent 400)
    else
      let req := applyDefaults config c.Query req0
      let talkAIReq := buildTalkAIRequest uuid req
      match backend talkAIReq with
      | none =>
        [Call.sendToTalkAI talkAIReq, Call.JSON 500 (Body.error "Internal error")]
          ++ afterJSON 500 (recordOutcome clock path userAgent 500)
      | some resp =>
        if resp.StatusCode ≠ 200 then
          [Call.sendToTalkAI talkAIReq,
            Call.JSON resp.StatusCode (Body.error "TalkAI API error")]
            ++ afterJSON resp.StatusCode
              (recordOutcome clock path userAgent resp.StatusCode)
        else if req.Stream = true then
          [Call.sendToTalkAI talkAIReq,
            Call.Stream (handleStreamResponse (uuid (historyLoop uuid req.Messages).uuidCalls)
              clock.created req.Model resp.Body)]
            ++ recordOutcome clock path userAgent 200
        else
          [Call.sendToTalkAI talkAIReq,
            handleNormalResponse (uuid (historyLoop uuid req.Messages).uuidCalls)
              clock.created req.Model resp.Body]
            ++ afterJSON 200 (recordOutcome clock path userAgent 200)

/-- The handler chain of the group `/v1` (main.go 1509-1514): `authenticateClient` first;
`handler`, the calls of the route's own handler, runs only after `c.Next()`. -/
def v1 (validClientKeys : List String) (authorization : Option String)
    (handler : List Call) : List Call :=
  match authenticateClient validClientKeys authorization with
  | Gate.next => handler
  | Gate.abort status error => [Call.JSON status (Body.error error)]

/-- The globals `stats` and `liveRequests`. -/
structure ServerState where
  stats : RequestStats
  liveRequests : List LiveRequest
  deriving DecidableEq, Repr

/-- The effect of one call on the globals. -/
def runCall (st : ServerState) (call : Call) : ServerState :=
  match call with
  | Call.recordRequestStats c =>
    { st with stats := recordRequestStats st.stats c.since c.now c.path c.status }
  | Call.addLiveRequest c => { st with liveRequests := addLiveRequest st.liveRequests c }
  | _ => st

/-- The effect of a sequence of calls on the globals. -/
def runCalls (st : ServerState) (calls : List Call) : ServerState :=
  calls.foldl runCall st

/-- The status codes sent to the client by a sequence of calls: for `c.JSON` the status
that gin's response writer passes on (none when the call panics), and `http.StatusOK`
for a streamed body, which is written without an explicit status. -/
def statusSent (calls : List Call) : List Int :=
  calls.filterMap fun call =>
    match call with
    | Call.JSON status _ => if JSONPanics status = true then none else some (JSONStatus status)
    | Call.Stream _ => some 200
    | _ => none

/-- The JSON bodies written to the client by a sequence of calls: the value given to
`c.JSON`, unless the call panics or its code allows no body. -/
def bodiesSent (calls : List Call) : List Body :=
  calls.filterMap fun call =>
    match call with
    | Call.JSON status body =>
      if JSONPanics status = true then none
      else if bodyAllowedForStatus status = true then some body
      else none
    | _ => none

/-- The status codes passed to `recordRequestStats` by a sequence of calls. -/
def statsRecorded (calls : List Call) : List Int :=
  calls.filterMap fun call =>
    match call with
    | Call.recordRequestStats c => some c.status
    | _ => none

/-- The status codes passed to `addLiveRequest` by a sequence of calls. -/
def logRecorded (calls : List Call) : List Int :=
  calls.filterMap fun call =>
    match call with
    | Call.addLiveRequest c => some c.status
    | _ => none

/-- The requests sent to the backend by a sequence of calls. -/
def backendCalls (calls : List Call) : List TalkAIRequest :=
  calls.filterMap fun call =>
    match call with
    | Call.sendToTalkAI req => some req
    | _ => none

/-! ## Vocabulary of the statements -/

/-- A message with role `system`. -/
def isSystem (m : ChatMessage) : Bool :=
  decide (m.Role = "system")

/-- A message with role `user` or `assistant`. -/
def isTurn (m : ChatMessage) : Bool :=
  decide (m.Role = "user" ∨ m.Role = "assistant")

/-- The backend speaker of a conversation turn: `assistant` for the assistant, `you`
for the user. -/
def fromOf (m : ChatMessage) : String :=
  if m.Role = "assistant" then "assistant" else "you"

/-- The entry appended for the turn `m` when `k` identifiers were generated before. -/
def entryOf (uuid : Nat → String) (p : Nat × ChatMessage) : TalkAIMessage :=
  { ID := uuid p.1, From := fromOf p.2, Content := p.2.Content }

/-- The payload of a backend line: the line without its first five characters, trimmed. -/
def payload (line : String) : String :=
  TrimSpace (sliceFrom line 5)

/-- A backend line that carries content: it starts with `data:` and its payload is
neither empty nor the sentinel `-1`. -/
def carriesContent (line : String) : Bool :=
  HasPrefix line "data:" && decide (payload line ≠ "") && decide (payload line ≠ "-1")

/-- The chunk shape shared by all events of one stream: identifier `chatcmpl-` followed by
the generated uuid, object `chat.completion.chunk`, the creation time, the model, and a
single choice of index 0 with the given delta and finish reason. -/
def chunk (uuid : String) (now : Int) (model : String) (delta : List (String × String))
    (finish : Option String) : StreamResponse :=
  { ID := "chatcmpl-" ++ uuid, Object := "chat.completion.chunk", Created := now,
    Model := model, Choices := [{ Delta := delta, Index := 0, FinishReason := finish }] }

/-- The sum of the durations of a sequence of recorded calls. -/
def totalSince (calls : List StatsCall) : Int :=
  (calls.map fun c => c.since).sum

/-- The response written on the success path of `chatCompletions`: the stream when the
effective mode is streaming, the aggregated completion otherwise. -/
def translated (uuid : Nat → String) (clock : Clock) (req : ChatCompletionRequest)
    (resp : BackendResponse) : Call :=
  if req.Stream = true then
    Call.Stream (handleStreamResponse (uuid (historyLoop uuid req.Messages).uuidCalls)
      clock.created req.Model resp.Body)
  else
    handleNormalResponse (uuid (historyLoop uuid req.Messages).uuidCalls)
      clock.created req.Model resp.Body

/-- In a trace of the client connection, every write is followed by a flush before the
next write (and before the end of the trace): the operation next to a write is a flush. -/
def eachWriteFlushed : List Output → Bool
  | [] => true
  | Output.flush :: rest => eachWriteFlushed rest
  | Output.write _ :: rest =>
    (match rest with
      | Output.flush :: _ => true
      | _ => false) && eachWriteFlushed rest

/-- A string has no white space (Go `unicode.IsSpace`) at its start or at its end. -/
def noOuterSpace (s : String) : Bool :=
  (match s.data.head? with
    | some c => !isSpace c
    | none => true)
  && (match s.data.getLast? with
    | some c => !isSpace c
    | none => true)

/-! ## Theorems: message history -/

theorem historyStep_system (uuid : Nat → String) (st : HistoryState) (m : ChatMessage)
    (h : m.Role = "system") :
    historyStep uuid st m = { st with systemPrompt := m.Content } := by
  simp [historyStep, h]

theorem historyStep_turn (uuid : Nat → String) (st : HistoryState) (m : ChatMessage)
    (h : m.Role = "user" ∨ m.Role = "assistant") :
    historyStep uuid st m =
      { st with
        messagesHistory := st.messagesHistory ++ [entryOf uuid (st.uuidCalls, m)]
        uuidCalls := st.uuidCalls + 1 } := by
  have hs : m.Role ≠ "system" := by
    rcases h with h | h <;> rw [h] <;> decide
  simp [historyStep, hs, h, entryOf, fromOf]

theorem historyStep_other (uuid : Nat → String) (st : HistoryState) (m : ChatMessage)
    (hs : m.Role ≠ "system") (h : ¬ (m.Role = "user" ∨ m.Role = "assistant")) :
    historyStep uuid st m = st := by
  simp only [historyStep, hs, h, if_false]

theorem isTurn_of_system (m : ChatMessage) (h : m.Role = "system") : isTurn m = false := by
  simp only [isTurn, h]
  decide

/-- Closed form of the loop from any starting state: the history grows by one entry per
user or assistant message, in order, and nothing else. -/
theorem foldl_historyStep_history (uuid : Nat → String) (msgs : List ChatMessage) :
    ∀ st : HistoryState,
      (msgs.foldl (historyStep uuid) st).messagesHistory =
        st.messagesHistory ++
          (List.enumFrom st.uuidCalls (msgs.filter isTurn)).map (entryOf uuid) := by
  induction msgs with
  | nil => intro st; simp
  | cons m rest ih =>
    intro st
    rw [List.foldl_cons, ih]
    by_cases hs : m.Role = "system"
    · rw [historyStep_system uuid st m hs, List.filter_cons_of_neg (by simp [isTurn_of_system m hs])]
    · by_cases ht : m.Role = "user" ∨ m.Role = "assistant"
      · rw [historyStep_turn uuid st m ht, List.filter_cons_of_pos (by simp [isTurn, ht])]
        simp [List.enumFrom_cons]
      · rw [historyStep_other uuid st m hs ht, List.filter_cons_of_neg (by simp [isTurn, ht])]

/-- The system prompt after the loop is the content of the last system message. -/
theorem foldl_historyStep_prompt (uuid : Nat → String) (msgs : List ChatMessage) :
    ∀ st : HistoryState,
      (msgs.foldl (historyStep uuid) st).systemPrompt =
        (((msgs.filter isSystem).getLast?).map (fun m => m.Content)).getD st.systemPrompt := by
  induction msgs using List.reverseRecOn with
  | nil => intro st; simp
  | append_singleton rest m ih =>
    intro st
    rw [List.foldl_append, List.foldl_cons, List.foldl_nil, List.filter_append]
    by_cases hs : m.Role = "system"
    · rw [historyStep_system uuid _ m hs]
      simp [isSystem, hs]
    · have hf : [m].filter isSystem = [] := by simp [isSystem, hs]
      rw [hf, List.append_nil, ← ih st]
      by_cases ht : m.Role = "user" ∨ m.Role = "assistant"
      · rw [historyStep_turn uuid _ m ht]
      · rw [historyStep_other uuid _ m hs ht]

theorem historyLoop_history (uuid : Nat → String) (msgs : List ChatMessage) :
    (historyLoop uuid msgs).messagesHistory =
      (List.enumFrom 0 (msgs.filter isTurn)).map (entryOf uuid) := by
  simp [historyLoop, foldl_historyStep_history]

theorem historyLoop_prompt (uuid : Nat → String) (msgs : List ChatMessage) :
    (historyLoop uuid msgs).systemPrompt =
      (((msgs.filter isSystem).getLast?).map (fun m => m.Content)).getD "" := by
  simp [historyLoop, foldl_historyStep_prompt]

theorem foldSystemPrompt_nil (sp : String) (n : Nat) :
    foldSystemPrompt { messagesHistory := [], systemPrompt := sp, uuidCalls := n } = [] := by
  simp [foldSystemPrompt]

theorem foldSystemPrompt_concat (L : List TalkAIMessage) (b : TalkAIMessage) (sp : String)
    (n : Nat) :
    foldSystemPrompt { messagesHistory := L ++ [b], systemPrompt := sp, uuidCalls := n } =
      L ++ [if sp ≠ "" ∧ b.From = "you" then { b with Content := sp ++ "\n\n" ++ b.Content }
            else b] := by
  simp only [foldSystemPrompt, List.getLast?_append, List.getLast?_singleton, setLastContent]
  by_cases h : sp ≠ "" ∧ b.From = "you"
  · simp [h]
  · simp [h]

theorem foldSystemPrompt_of_concat (st : HistoryState) (L : List TalkAIMessage)
    (b : TalkAIMessage) (h : st.messagesHistory = L ++ [b]) :
    foldSystemPrompt st =
      L ++ [if st.systemPrompt ≠ "" ∧ b.From = "you" then
              { b with Content := st.systemPrompt ++ "\n\n" ++ b.Content }
            else b] := by
  cases st with
  | mk hist sp n =>
    simp only at h
    subst h
    exact foldSystemPrompt_concat L b sp n

theorem foldSystemPrompt_of_nil (st : HistoryState) (h : st.messagesHistory = []) :
    foldSystemPrompt st = [] := by
  cases st with
  | mk hist sp n =>
    simp only at h
    subst h
    exact foldSystemPrompt_nil sp n

/-- The fold changes neither the identifiers nor the speakers. -/
theorem foldSystemPrompt_map_id_from (st : HistoryState) :
    (foldSystemPrompt st).map (fun e => (e.ID, e.From)) =
      st.messagesHistory.map (fun e => (e.ID, e.From)) := by
  rcases List.eq_nil_or_concat st.messagesHistory with h | ⟨L, b, h⟩
  · rw [foldSystemPrompt_of_nil st h, h]
  · rw [List.concat_eq_append] at h
    rw [foldSystemPrompt_of_concat st L b h, h]
    by_cases hc : st.systemPrompt ≠ "" ∧ b.From = "you"
    · simp [hc]
    · simp [hc]

/-- The fold changes no entry but the last. -/
theorem foldSystemPrompt_dropLast (st : HistoryState) :
    (foldSystemPrompt st).dropLast = st.messagesHistory.dropLast := by
  rcases List.eq_nil_or_concat st.messagesHistory with h | ⟨L, b, h⟩
  · rw [foldSystemPrompt_of_nil st h, h]
  · rw [List.concat_eq_append] at h
    rw [foldSystemPrompt_of_concat st L b h, h]
    simp

theorem messagesHistory_map_id_from (uuid : Nat → String) (msgs : List ChatMessage) :
    (messagesHistory uuid msgs).map (fun e => (e.ID, e.From)) =
      (List.enumFrom 0 (msgs.filter isTurn)).map (fun p => (uuid p.1, fromOf p.2)) := by
  rw [messagesHistory, foldSystemPrompt_map_id_from, historyLoop_history]
  simp [entryOf, Function.comp_def]

theorem messagesHistory_length (uuid : Nat → String) (msgs : List ChatMessage) :
    (messagesHistory uuid msgs).length = (msgs.filter isTurn).length := by
  have h := congrArg List.length (messagesHistory_map_id_from uuid msgs)
  simpa using h

theorem messagesHistory_dropLast (uuid : Nat → String) (msgs : List ChatMessage) :
    (messagesHistory uuid msgs).dropLast =
      ((List.enumFrom 0 (msgs.filter isTurn)).map (entryOf uuid)).dropLast := by
  rw [messagesHistory, foldSystemPrompt_dropLast, historyLoop_history]

/-- The last entry of the final history, when the last user or assistant message is `u`. -/
theorem messagesHistory_getLast (uuid : Nat → String) (msgs : List ChatMessage)
    (u : ChatMessage) (hu : (msgs.filter isTurn).getLast? = some u) :
    (messagesHistory uuid msgs).getLast? =
      some (if (historyLoop uuid msgs).systemPrompt ≠ "" ∧ fromOf u = "you" then
              { ID := uuid ((msgs.filter isTurn).length - 1), From := fromOf u,
                Content := (historyLoop uuid msgs).systemPrompt ++ "\n\n" ++ u.Content }
            else
              { ID := uuid ((msgs.filter isTurn).length - 1), From := fromOf u,
                Content := u.Content }) := by
  have hsplit : (msgs.filter isTurn).dropLast ++ [u] = msgs.filter isTurn :=
    List.dropLast_append_getLast? u hu
  have hh : (historyLoop uuid msgs).messagesHistory =
      (List.enumFrom 0 (msgs.filter isTurn).dropLast).map (entryOf uuid) ++
        [entryOf uuid ((msgs.filter isTurn).length - 1, u)] := by
    rw [historyLoop_history]
    conv_lhs => rw [← hsplit]
    rw [List.enumFrom_append]
    simp
  rw [messagesHistory, foldSystemPrompt_of_concat _ _ _ hh]
  simp only [List.getLast?_append, List.getLast?_singleton, entryOf]
  by_cases hc : (historyLoop uuid msgs).systemPrompt ≠ "" ∧ fromOf u = "you"
  · simp [hc]
  · simp [hc]

/-- C1 (amended).  System-prompt fold of `chatCompletions`: the history has exactly one
entry per user or assistant message, in order, and none for a system message (dropping
the system messages from the input leaves the history built by the loop unchanged);
and if the last system message of the list has NON-EMPTY content and the last user or
assistant message is a user message, then the last history entry is a `you` entry whose
content is that system content, a blank line, and the original user content.  When the
captured system prompt is empty the history is left as the loop built it. -/
theorem chatCompletions_system_fold (uuid : Nat → String) (msgs : List ChatMessage) :
    (messagesHistory uuid msgs).map (fun e => (e.ID, e.From)) =
        (List.enumFrom 0 (msgs.filter isTurn)).map (fun p => (uuid p.1, fromOf p.2))
    ∧ (historyLoop uuid (msgs.filter fun m => !isSystem m)).messagesHistory =
        (historyLoop uuid msgs).messagesHistory
    ∧ ((historyLoop uuid msgs).systemPrompt = "" →
        messagesHistory uuid msgs = (historyLoop uuid msgs).messagesHistory)
    ∧ ∀ s u : ChatMessage,
        (msgs.filter isSystem).getLast? = some s → s.Content ≠ "" →
        (msgs.filter isTurn).getLast? = some u → u.Role = "user" →
        ((messagesHistory uuid msgs).getLast?.map fun e => (e.From, e.Content)) =
          some ("you", s.Content ++ "\n\n" ++ u.Content) := by
  refine ⟨messagesHistory_map_id_from uuid msgs, ?_, ?_, ?_⟩
  · rw [historyLoop_history, historyLoop_history, List.filter_filter]
    congr 2
    apply List.filter_congr
    intro m _
    by_cases hs : m.Role = "system"
    · simp [isTurn_of_system m hs]
    · simp [isSystem, hs]
  · intro hp
    rcases List.eq_nil_or_concat (historyLoop uuid msgs).messagesHistory with h | ⟨L, b, h⟩
    · rw [messagesHistory, foldSystemPrompt_of_nil _ h, h]
    · rw [List.concat_eq_append] at h
      rw [messagesHistory, foldSystemPrompt_of_concat _ L b h, h]
      simp [hp]
  · intro s u hs hne hu hrole
    have hp : (historyLoop uuid msgs).systemPrompt = s.Content := by
      rw [historyLoop_prompt, hs]
      rfl
    have hf : fromOf u = "you" := by
      simp only [fromOf, hrole]
      decide
    rw [messagesHistory_getLast uuid msgs u hu, hp, hf]
    simp [hne]

/-- C1, the claim as written fails: with an empty system message in front of a user
message, a system message is present and the last history entry is a user turn, yet its
content stays `U` and is not the system content followed by a blank line and `U`. -/
theorem chatCompletions_system_fold_empty_system :
    ([(⟨"system", ""⟩ : ChatMessage), ⟨"user", "U"⟩].filter isSystem).getLast?
        = some ⟨"system", ""⟩
    ∧ ([(⟨"system", ""⟩ : ChatMessage), ⟨"user", "U"⟩].filter isTurn).getLast?
        = some ⟨"user", "U"⟩
    ∧ messagesHistory (fun _ => "id") [⟨"system", ""⟩, ⟨"user", "U"⟩] = [⟨"id", "you", "U"⟩]
    ∧ ¬ (((messagesHistory (fun _ => "id") [⟨"system", ""⟩, ⟨"user", "U"⟩]).getLast?.map
          fun e => (e.From, e.Content)) = some ("you", "" ++ "\n\n" ++ "U")) := by
  decide

/-- C1, the amended statement at the messages system `S`, assistant `A`, user `U`. -/
theorem chatCompletions_system_fold_witness :
    (([(⟨"system", "S"⟩ : ChatMessage), ⟨"assistant", "A"⟩, ⟨"user", "U"⟩].filter
        isSystem).getLast? = some ⟨"system", "S"⟩)
    ∧ ((⟨"system", "S"⟩ : ChatMessage).Content ≠ "")
    ∧ (([(⟨"system", "S"⟩ : ChatMessage), ⟨"assistant", "A"⟩, ⟨"user", "U"⟩].filter
        isTurn).getLast? = some ⟨"user", "U"⟩)
    ∧ (((messagesHistory (fun _ => "id")
          [⟨"system", "S"⟩, ⟨"assistant", "A"⟩, ⟨"user", "U"⟩]).getLast?.map
          fun e => (e.From, e.Content)) = some ("you", "S" ++ "\n\n" ++ "U")) :=
  ⟨by decide, by decide, by decide,
    (chatCompletions_system_fold (fun _ => "id")
      [⟨"system", "S"⟩, ⟨"assistant", "A"⟩, ⟨"user", "U"⟩]).2.2.2
      ⟨"system", "S"⟩ ⟨"user", "U"⟩ (by decide) (by decide) (by decide) rfl⟩

/-- C2.  For every non-empty `S` and every `U`, the messages system `S`, user `U` are
translated to a history of exactly one entry, from `you`, with content `S`, a blank
line, `U` (its identifier is the first generated one). -/
theorem chatCompletions_system_then_user (uuid : Nat → String) (S U : String) (hS : S ≠ "") :
    messagesHistory uuid [⟨"system", S⟩, ⟨"user", U⟩] =
      [{ ID := uuid 0, From := "you", Content := S ++ "\n\n" ++ U }] := by
  have h1 : ("user" : String) ≠ "system" := by decide
  have h2 : ("user" : String) ≠ "assistant" := by decide
  simp [messagesHistory, historyLoop, historyStep, foldSystemPrompt, setLastContent, hS, h1, h2]

/-- C2 at `S = "S"`, `U = "U"`. -/
theorem chatCompletions_system_then_user_witness :
    ("S" : String) ≠ "" ∧
    messagesHistory (fun _ => "id") [⟨"system", "S"⟩, ⟨"user", "U"⟩] =
      [{ ID := "id", From := "you", Content := "S" ++ "\n\n" ++ "U" }] :=
  ⟨by decide, chatCompletions_system_then_user (fun _ => "id") "S" "U" (by decide)⟩

theorem getElem?_enumFrom_map_entryOf (uuid : Nat → String) (l : List ChatMessage)
    (n i : Nat) (m : ChatMessage) (h : l[i]? = some m) :
    ((List.enumFrom n l).map (entryOf uuid))[i]? = some (entryOf uuid (n + i, m)) := by
  simp [List.getElem?_map, List.getElem?_enumFrom, h]

theorem getElem?_dropLast_of_lt {α : Type} (l : List α) (i : Nat) (h : i + 1 < l.length) :
    l.dropLast[i]? = l[i]? := by
  rw [List.dropLast_eq_take, List.getElem?_take]
  have : i < l.length - 1 := by omega
  simp [this]

/-- C3.  For a message list whose roles are all among system, user and assistant, the
history has exactly one entry per non-system message, in the same order: the entry at
position `i` comes from the `i`-th non-system message, is from `you` when that message
is a user message and from `assistant` when it is an assistant message, and carries that
message's content unless it is the last entry. -/
theorem chatCompletions_history_order (uuid : Nat → String) (msgs : List ChatMessage)
    (hroles : ∀ m ∈ msgs, m.Role = "system" ∨ m.Role = "user" ∨ m.Role = "assistant") :
    (messagesHistory uuid msgs).length =
        (msgs.filter fun m => decide (m.Role ≠ "system")).length
    ∧ ∀ (i : Nat) (m : ChatMessage),
        (msgs.filter fun m => decide (m.Role ≠ "system"))[i]? = some m →
        ∃ e : TalkAIMessage, (messagesHistory uuid msgs)[i]? = some e
          ∧ (m.Role = "user" → e.From = "you")
          ∧ (m.Role = "assistant" → e.From = "assistant")
          ∧ (i + 1 < (messagesHistory uuid msgs).length → e.Content = m.Content) := by
  have hfilter : (msgs.filter fun m => decide (m.Role ≠ "system")) = msgs.filter isTurn := by
    apply List.filter_congr
    intro m hm
    rcases hroles m hm with h | h | h
    · simp [isTurn_of_system m h, h]
    · have : m.Role ≠ "system" := by rw [h]; decide
      simp [isTurn, h, this]
    · have : m.Role ≠ "system" := by rw [h]; decide
      simp [isTurn, h, this]
  rw [hfilter]
  refine ⟨messagesHistory_length uuid msgs, ?_⟩
  intro i m hm
  have hlen := messagesHistory_length uuid msgs
  have hi : i < (msgs.filter isTurn).length := by
    by_contra hc
    rw [List.getElem?_eq_none (by omega)] at hm
    cases hm
  have hi2 : i < (messagesHistory uuid msgs).length := by omega
  refine ⟨(messagesHistory uuid msgs)[i], List.getElem?_eq_getElem hi2, ?_, ?_, ?_⟩
  · intro hr
    have h1 := congrArg (fun l => l[i]?) (messagesHistory_map_id_from uuid msgs)
    simp only [List.getElem?_map, List.getElem?_enumFrom, hm, List.getElem?_eq_getElem hi2,
      Option.map_some'] at h1
    have h2 := congrArg Prod.snd (Option.some.inj h1)
    simp only at h2
    rw [h2, fromOf, hr]
    decide
  · intro hr
    have h1 := congrArg (fun l => l[i]?) (messagesHistory_map_id_from uuid msgs)
    simp only [List.getElem?_map, List.getElem?_enumFrom, hm, List.getElem?_eq_getElem hi2,
      Option.map_some'] at h1
    have h2 := congrArg Prod.snd (Option.some.inj h1)
    simp only at h2
    rw [h2, fromOf, hr]
    decide
  · intro hlast
    have h1 := congrArg (fun l => l[i]?) (messagesHistory_dropLast uuid msgs)
    simp only at h1
    rw [getElem?_dropLast_of_lt _ i hlast,
      getElem?_dropLast_of_lt _ i (by simpa [hlen] using hlast),
      getElem?_enumFrom_map_entryOf uuid _ 0 i m hm, List.getElem?_eq_getElem hi2] at h1
    have h2 := congrArg TalkAIMessage.Content (Option.some.inj h1)
    simpa [entryOf] using h2

/-- C3 at the messages system `S`, user `U`, assistant `A`, user `V`. -/
theorem chatCompletions_history_order_witness :
    (∀ m ∈ [(⟨"system", "S"⟩ : ChatMessage), ⟨"user", "U"⟩, ⟨"assistant", "A"⟩, ⟨"user", "V"⟩],
        m.Role = "system" ∨ m.Role = "user" ∨ m.Role = "assistant")
    ∧ (messagesHistory (fun _ => "id")
        [⟨"system", "S"⟩, ⟨"user", "U"⟩, ⟨"assistant", "A"⟩, ⟨"user", "V"⟩]).length =
        ([(⟨"system", "S"⟩ : ChatMessage), ⟨"user", "U"⟩, ⟨"assistant", "A"⟩,
          ⟨"user", "V"⟩].filter fun m => decide (m.Role ≠ "system")).length :=
  ⟨by decide,
    (chatCompletions_history_order (fun _ => "id")
      [⟨"system", "S"⟩, ⟨"user", "U"⟩, ⟨"assistant", "A"⟩, ⟨"user", "V"⟩] (by decide)).1⟩

/-! ## Theorems: stream reframing -/

theorem join_nil_eq : String.join [] = "" := rfl

theorem join_cons_eq (a : String) (l : List String) :
    String.join (a :: l) = a ++ String.join l := by
  apply String.ext
  simp [String.join_eq]

theorem aggregateLine_eq (content line : String) :
    aggregateLine content line =
      if carriesContent line then content ++ payload line else content := by
  unfold aggregateLine carriesContent payload
  by_cases h1 : HasPrefix line "data:" = true
  · by_cases h2 : TrimSpace (sliceFrom line 5) ≠ "" ∧ TrimSpace (sliceFrom line 5) ≠ "-1"
    · simp [h1, h2.1, h2.2]
    · have h3 := h2
      rw [not_and_or] at h3
      rcases h3 with h3 | h3
      · simp only [ne_eq, not_not] at h3
        simp [h1, h3]
      · simp only [ne_eq, not_not] at h3
        simp [h1, h3]
  · simp [h1]

theorem foldl_aggregateLine (lines : List String) :
    ∀ content : String,
      lines.foldl aggregateLine content =
        content ++ String.join ((lines.filter carriesContent).map payload) := by
  induction lines with
  | nil => intro content; simp [join_nil_eq]
  | cons l rest ih =>
    intro content
    rw [List.foldl_cons, ih, aggregateLine_eq]
    by_cases h : carriesContent l = true
    · simp [h, join_cons_eq, String.append_assoc]
    · simp [h]

theorem streamLine_eq (uuid : String) (now : Int) (model : String) (out : List Output)
    (line : String) :
    streamLine ("chatcmpl-" ++ uuid) now model out line =
      out ++ (if carriesContent line then
                [Output.write (SSEData.json (chunk uuid now model [("content", payload line)] none)),
                  Output.flush]
              else []) := by
  unfold streamLine carriesContent payload chunk
  by_cases h1 : HasPrefix line "data:" = true
  · by_cases h2 : TrimSpace (sliceFrom line 5) ≠ "" ∧ TrimSpace (sliceFrom line 5) ≠ "-1"
    · simp [h1, h2.1, h2.2]
    · have h3 := h2
      rw [not_and_or] at h3
      rcases h3 with h3 | h3
      · simp only [ne_eq, not_not] at h3
        simp [h1, h3]
      · simp only [ne_eq, not_not] at h3
        simp [h1, h3]
  · simp [h1]

theorem foldl_streamLine (uuid : String) (now : Int) (model : String) (lines : List String) :
    ∀ out : List Output,
      lines.foldl (streamLine ("chatcmpl-" ++ uuid) now model) out =
        out ++ (lines.filter carriesContent).flatMap fun l =>
          [Output.write (SSEData.json (chunk uuid now model [("content", payload l)] none)),
            Output.flush] := by
  induction lines with
  | nil => intro out; simp
  | cons l rest ih =>
    intro out
    rw [List.foldl_cons, ih, streamLine_eq]
    by_cases h : carriesContent l = true
    · simp [h]
    · simp [h]

/-- Closed form of the trace of `handleStreamResponse`. -/
theorem handleStreamResponse_eq (uuid : String) (now : Int) (model : String)
    (lines : List String) :
    streamTrace uuid now model lines =
      [Output.write (SSEData.json (chunk uuid now model [("role", "assistant")] none)),
        Output.flush]
      ++ ((lines.filter carriesContent).flatMap fun l =>
          [Output.write (SSEData.json (chunk uuid now model [("content", payload l)] none)),
            Output.flush])
      ++ [Output.write (SSEData.json (chunk uuid now model [] (some "stop"))),
          Output.write (SSEData.text "[DONE]"), Output.flush] := by
  simp only [streamTrace, foldl_streamLine]
  rfl

theorem writes_append (a b : List Output) : writes (a ++ b) = writes a ++ writes b := by
  simp [writes, List.filterMap_append]

theorem writes_flatMap_chunks (f : String → SSEData) (ls : List String) :
    writes (ls.flatMap fun l => [Output.write (f l), Output.flush]) = ls.map f := by
  induction ls with
  | nil => rfl
  | cons l rest ih =>
    rw [List.flatMap_cons, writes_append, ih]
    simp [writes]

theorem writes_handleStreamResponse (uuid : String) (now : Int) (model : String)
    (lines : List String) :
    writes (streamTrace uuid now model lines) =
      [SSEData.json (chunk uuid now model [("role", "assistant")] none)]
      ++ ((lines.filter carriesContent).map fun l =>
          SSEData.json (chunk uuid now model [("content", payload l)] none))
      ++ [SSEData.json (chunk uuid now model [] (some "stop")), SSEData.text "[DONE]"] := by
  rw [handleStreamResponse_eq, writes_append, writes_append, writes_flatMap_chunks]
  simp [writes]

theorem deltaContents_handleStreamResponse (uuid : String) (now : Int) (model : String)
    (lines : List String) :
    deltaContents (streamTrace uuid now model lines) =
      (lines.filter carriesContent).map payload := by
  rw [deltaContents, writes_handleStreamResponse]
  have hrole : deltaValue [("role", "assistant")] "content" = none := by decide
  simp only [List.flatMap_append, List.flatMap_cons, List.flatMap_nil, chunk,
    List.filterMap_cons, List.filterMap_nil, hrole, List.append_nil, List.nil_append]
  have hnil : deltaValue [] "content" = none := rfl
  simp only [hnil, List.append_nil]
  induction lines.filter carriesContent with
  | nil => rfl
  | cons l rest ih =>
    simp only [List.map_cons, List.flatMap_cons, ih]
    simp [deltaValue]

/-- Over the lines that the scanner delivers, the loop of `aggregateStreamContent` returns
the concatenation, in arrival order and without separator, of the trimmed payloads (line
without its first five characters) of exactly the lines that start with `data:` and whose
trimmed payload is neither empty nor `-1`; all other lines contribute nothing.  The lines
`data: A`, `data: -1`, `data:   `, `data: B` give `AB`. -/
theorem aggregateStreamContent_concat (lines : List String) :
    aggregateLines lines =
        String.join ((lines.filter fun l =>
            HasPrefix l "data:" && decide (TrimSpace (sliceFrom l 5) ≠ "")
              && decide (TrimSpace (sliceFrom l 5) ≠ "-1")).map
          fun l => TrimSpace (sliceFrom l 5))
    ∧ aggregateLines ["data: A", "data: -1", "data:   ", "data: B"] = "AB" := by
  constructor
  · have h := foldl_aggregateLine lines ""
    rw [String.empty_append] at h
    exact h
  · decide

theorem chunk_of_mem_writes (uuid : String) (now : Int) (model : String)
    (lines : List String) (r : StreamResponse)
    (hr : SSEData.json r ∈ writes (streamTrace uuid now model lines)) :
    ∃ delta finish, r = chunk uuid now model delta finish
      ∧ (finish ≠ none → delta = [] ∧ finish = some "stop") := by
  rw [writes_handleStreamResponse] at hr
  simp only [List.mem_append, List.mem_cons, List.mem_map, List.mem_singleton,
    List.not_mem_nil, or_false, SSEData.json.injEq] at hr
  rcases hr with (h | ⟨l, _, h⟩) | h | h
  · exact ⟨_, _, h, fun hc => absurd rfl hc⟩
  · exact ⟨_, _, h.symm, fun hc => absurd rfl hc⟩
  · exact ⟨_, _, h, fun _ => ⟨rfl, rfl⟩⟩
  · cases h

/-- Over the lines that the scanner delivers, the events written by `handleStreamResponse`
are, in this order: one chunk whose delta is role `assistant`; one chunk per line that
starts with `data:` and has a trimmed payload other than the empty string and `-1`, in
line order, with that payload as delta content; one chunk with an empty delta and finish
reason `stop`; the literal `[DONE]`.
Every written chunk has the same id (`chatcmpl-` and the generated uuid), the same
creation time, the same model, object `chat.completion.chunk` and a single choice of
index 0, and a chunk with a finish reason is the terminal `stop` chunk. -/
theorem handleStreamResponse_events (uuid : String) (now : Int) (model : String)
    (lines : List String) :
    writes (streamTrace uuid now model lines) =
        [SSEData.json (chunk uuid now model [("role", "assistant")] none)]
        ++ ((lines.filter carriesContent).map fun l =>
            SSEData.json (chunk uuid now model [("content", payload l)] none))
        ++ [SSEData.json (chunk uuid now model [] (some "stop")), SSEData.text "[DONE]"]
    ∧ ∀ r : StreamResponse,
        SSEData.json r ∈ writes (streamTrace uuid now model lines) →
        r.ID = "chatcmpl-" ++ uuid ∧ r.Object = "chat.completion.chunk" ∧ r.Created = now
          ∧ r.Model = model
          ∧ ∃ c : StreamChoice, r.Choices = [c] ∧ c.Index = 0
              ∧ (c.FinishReason ≠ none → c.Delta = [] ∧ c.FinishReason = some "stop") := by
  refine ⟨writes_handleStreamResponse uuid now model lines, ?_⟩
  intro r hr
  obtain ⟨delta, finish, hrc, hfin⟩ := chunk_of_mem_writes uuid now model lines r hr
  subst hrc
  exact ⟨rfl, rfl, rfl, rfl, _, rfl, rfl, hfin⟩

/-- The events at the lines `data: A`, `data: -1`, `data: B` and the terminal chunk. -/
theorem handleStreamResponse_events_witness :
    SSEData.json (chunk "u" 7 "m" [] (some "stop")) ∈
        writes (streamTrace "u" 7 "m" ["data: A", "data: -1", "data: B"])
    ∧ (chunk "u" 7 "m" [] (some "stop")).ID = "chatcmpl-" ++ "u"
    ∧ (chunk "u" 7 "m" [] (some "stop")).Object = "chat.completion.chunk" :=
  ⟨by decide,
    ((handleStreamResponse_events "u" 7 "m" ["data: A", "data: -1", "data: B"]).2
      (chunk "u" 7 "m" [] (some "stop")) (by decide)).1,
    ((handleStreamResponse_events "u" 7 "m" ["data: A", "data: -1", "data: B"]).2
      (chunk "u" 7 "m" [] (some "stop")) (by decide)).2.1⟩

theorem join_deltaContents_streamTrace (uuid : String) (now : Int) (model : String)
    (lines : List String) :
    String.join (deltaContents (streamTrace uuid now model lines)) =
      aggregateLines lines := by
  rw [deltaContents_handleStreamResponse, aggregateLines, foldl_aggregateLine,
    String.empty_append]

/-- C6.  Streaming and aggregation agree: the concatenation, in emission order, of the
content values of the chunks written by `handleStreamResponse` is the string returned by
`aggregateStreamContent` on the same body; this holds of the two loops for every
sequence of lines that the scanner delivers, hence for every backend body. -/
theorem stream_agrees_with_aggregate (uuid : String) (now : Int) (model : String)
    (lines : List String) (body : ResponseBody) :
    String.join (deltaContents (streamTrace uuid now model lines)) = aggregateLines lines
    ∧ String.join (deltaContents (handleStreamResponse uuid now model body)) =
        aggregateStreamContent body :=
  ⟨join_deltaContents_streamTrace uuid now model lines,
    join_deltaContents_streamTrace uuid now model (scanLines body)⟩

/-! ## Theorems: access gate -/

theorem splitChars_ne_nil (sep : Char) (cs : List Char) : splitChars sep cs ≠ [] := by
  cases cs with
  | nil => simp [splitChars]
  | cons c cs =>
    simp only [splitChars]
    split_ifs
    · simp
    · split <;> simp

theorem splitChars_singleton (sep : Char) (cs : List Char) :
    ∀ p : List Char, splitChars sep cs = [p] ↔ (cs = p ∧ sep ∉ p) := by
  induction cs with
  | nil =>
    intro p
    simp only [splitChars]
    constructor
    · intro h
      have : p = [] := by simpa using h.symm
      subst this
      simp
    · rintro ⟨h, _⟩
      subst h
      rfl
  | cons c cs ih =>
    intro p
    simp only [splitChars]
    by_cases hc : c = sep
    · simp only [hc, if_true]
      constructor
      · intro h
        have h2 : splitChars sep cs = [] := by
          have := (List.cons.inj h).2
          exact this
        exact absurd h2 (splitChars_ne_nil sep cs)
      · rintro ⟨h, hn⟩
        subst h
        simp at hn
    · simp only [hc, if_false]
      rcases hq : splitChars sep cs with _ | ⟨q, qs⟩
      · exact absurd hq (splitChars_ne_nil sep cs)
      · simp only
        constructor
        · intro h
          have h1 := (List.cons.inj h).1
          have h2 := (List.cons.inj h).2
          subst h2
          have := (ih q).1 hq
          subst h1
          refine ⟨by rw [this.1], ?_⟩
          simp only [List.mem_cons, not_or]
          exact ⟨fun e => hc e.symm, this.2⟩
        · rintro ⟨h, hn⟩
          subst h
          simp only [List.mem_cons, not_or] at hn
          have := (ih cs).2 ⟨rfl, hn.2⟩
          rw [this] at hq
          have h1 := (List.cons.inj hq).1
          have h2 := (List.cons.inj hq).2
          subst h1 h2
          rfl

theorem splitChars_pair (sep : Char) (cs : List Char) :
    ∀ a b : List Char,
      splitChars sep cs = [a, b] ↔ (cs = a ++ sep :: b ∧ sep ∉ a ∧ sep ∉ b) := by
  induction cs with
  | nil =>
    intro a b
    simp [splitChars]
  | cons c cs ih =>
    intro a b
    simp only [splitChars]
    by_cases hc : c = sep
    · simp only [hc, if_true]
      constructor
      · intro h
        have h1 := (List.cons.inj h).1
        have h2 := (List.cons.inj h).2
        subst h1
        have := (splitChars_singleton sep cs b).1 h2
        simp [this.1, this.2]
      · rintro ⟨h, hna, hnb⟩
        cases a with
        | nil =>
          simp only [List.nil_append, List.cons.injEq, true_and] at h
          rw [(splitChars_singleton sep cs b).2 ⟨h, hnb⟩]
        | cons x a =>
          simp only [List.cons_append, List.cons.injEq] at h
          simp only [List.mem_cons, not_or] at hna
          exact absurd h.1 hna.1
    · simp only [hc, if_false]
      rcases hq : splitChars sep cs with _ | ⟨q, qs⟩
      · exact absurd hq (splitChars_ne_nil sep cs)
      · simp only
        constructor
        · intro h
          have h1 := (List.cons.inj h).1
          have h2 := (List.cons.inj h).2
          subst h2
          have := (ih q b).1 hq
          subst h1
          refine ⟨by rw [this.1]; rfl, ?_, this.2.2⟩
          simp only [List.mem_cons, not_or]
          exact ⟨fun e => hc e.symm, this.2.1⟩
        · rintro ⟨h, hna, hnb⟩
          cases a with
          | nil =>
            simp only [List.nil_append, List.cons.injEq] at h
            exact absurd h.1 hc
          | cons x a =>
            simp only [List.cons_append, List.cons.injEq] at h
            simp only [List.mem_cons, not_or] at hna
            have := (ih a b).2 ⟨h.2, hna.2, hnb⟩
            rw [this] at hq
            have h1 := (List.cons.inj hq).1
            have h2 := (List.cons.inj hq).2
            subst h1 h2
            rw [h.1]

theorem Split_pair (s a b : String) (sep : Char) :
    Split s sep = [a, b] ↔
      (s = a ++ String.singleton sep ++ b ∧ sep ∉ a.data ∧ sep ∉ b.data) := by
  have hmap : Split s sep = [a, b] ↔ splitChars sep s.data = [a.data, b.data] := by
    unfold Split
    constructor
    · intro h
      have h2 := congrArg (List.map String.data) h
      simpa [Function.comp_def] using h2
    · intro h
      rw [h]
      rfl
  rw [hmap, splitChars_pair]
  constructor
  · rintro ⟨h, ha, hb⟩
    refine ⟨?_, ha, hb⟩
    apply String.ext
    simp [h, String.singleton]
  · rintro ⟨h, ha, hb⟩
    refine ⟨?_, ha, hb⟩
    rw [h]
    simp [String.singleton]
theorem authenticateClient_next_iff_split (K : List String) (header : Option String)
    (hK : K ≠ []) :
    authenticateClient K header = Gate.next ↔
      ∃ t, Split (GetHeader header) (Char.ofNat 32) = ["Bearer", t] ∧ t ∈ K := by
  have hlen : K.length ≠ 0 := by
    intro h
    exact hK (List.length_eq_zero.mp h)
  unfold authenticateClient
  simp only [hlen, if_false]
  by_cases he : GetHeader header = ""
  · simp only [he, if_true]
    constructor
    · intro h
      cases h
    · rintro ⟨t, ht, _⟩
      have hs : Split "" (Char.ofNat 32) = [""] := by decide
      rw [hs] at ht
      simp at ht
  · simp only [he, if_false]
    by_cases hp : (Split (GetHeader header) (Char.ofNat 32)).length ≠ 2 ∨
        (Split (GetHeader header) (Char.ofNat 32))[0]? ≠ some "Bearer"
    · simp only [hp, if_true]
      constructor
      · intro h
        cases h
      · rintro ⟨t, ht, _⟩
        rw [ht] at hp
        simp at hp
    · simp only [hp, if_false]
      rw [not_or, not_not, not_not] at hp
      obtain ⟨hl, hb⟩ := hp
      obtain ⟨x, y, hxy⟩ := List.length_eq_two.mp hl
      rw [hxy] at hb ⊢
      simp only [List.getElem?_cons_zero, Option.some.injEq] at hb
      subst hb
      by_cases hy : y ∈ K
      · simp only [List.getD_cons_succ, List.getD_cons_zero, hy, not_true_eq_false, if_false,
          true_iff]
        exact ⟨y, rfl, hy⟩
      · simp only [List.getD_cons_succ, List.getD_cons_zero, hy, not_false_eq_true, if_true]
        constructor
        · intro h
          cases h
        · rintro ⟨t, ht, htK⟩
          simp only [List.cons.injEq, and_true, true_and] at ht
          exact absurd (ht ▸ htK) hy

/-- Every outcome of the gate other than `next` is a 401 with an error message. -/
theorem authenticateClient_abort_401 (K : List String) (header : Option String)
    (h : authenticateClient K header ≠ Gate.next) :
    ∃ msg, authenticateClient K header = Gate.abort 401 msg := by
  unfold authenticateClient at h ⊢
  dsimp only at h ⊢
  split_ifs at h ⊢ <;> first | exact absurd rfl h | exact ⟨_, rfl⟩

/-- C7.  With a non-empty key set, `authenticateClient` admits the call exactly when the
`Authorization` header splits on the space character into exactly two parts, `Bearer`
and a member of the key set, that is when the header is `Bearer`, one space, and a key of
the set that contains no space; in every other case (header missing or empty included)
it answers 401 with an error body and aborts. -/
theorem authenticateClient_admits_iff (K : List String) (header : Option String)
    (hK : K ≠ []) :
    (authenticateClient K header = Gate.next ↔
        ∃ t, Split (GetHeader header) (Char.ofNat 32) = ["Bearer", t] ∧ t ∈ K)
    ∧ (authenticateClient K header = Gate.next ↔
        ∃ t, t ∈ K ∧ Char.ofNat 32 ∉ t.data ∧ header = some ("Bearer" ++ " " ++ t))
    ∧ (authenticateClient K header ≠ Gate.next →
        ∃ msg, authenticateClient K header = Gate.abort 401 msg) := by
  refine ⟨authenticateClient_next_iff_split K header hK, ?_,
    authenticateClient_abort_401 K header⟩
  rw [authenticateClient_next_iff_split K header hK]
  have hsp : String.singleton (Char.ofNat 32) = " " := by decide
  have hB : Char.ofNat 32 ∉ ("Bearer" : String).data := by decide
  constructor
  · rintro ⟨t, ht, htK⟩
    have h := (Split_pair _ _ _ _).1 ht
    rw [hsp] at h
    refine ⟨t, htK, h.2.2, ?_⟩
    cases header with
    | none =>
      have h1 := congrArg String.length h.1
      simp only [GetHeader, Option.getD_none, String.length_append, String.length_empty] at h1
      exfalso
      have h6 : ("Bearer" : String).length = 6 := by decide
      have h1s : (" " : String).length = 1 := by decide
      omega
    | some v =>
      simpa [GetHeader] using h.1
  · rintro ⟨t, htK, hsp2, hh⟩
    refine ⟨t, ?_, htK⟩
    rw [Split_pair, hsp, hh]
    exact ⟨rfl, hB, hsp2⟩

/-- C7 at the key set `k` and the header `Bearer k`. -/
theorem authenticateClient_admits_iff_witness :
    (["k"] : List String) ≠ [] ∧
    (authenticateClient ["k"] (some "Bearer k") = Gate.next ↔
      ∃ t, Split (GetHeader (some "Bearer k")) (Char.ofNat 32) = ["Bearer", t] ∧ t ∈ ["k"]) :=
  ⟨by decide, (authenticateClient_admits_iff ["k"] (some "Bearer k") (by decide)).1⟩

/-- C8.  With an empty key set `authenticateClient` admits every call, whatever the
`Authorization` header is, and so never answers 401. -/
theorem authenticateClient_open_mode (header : Option String) :
    authenticateClient [] header = Gate.next ∧
    ∀ msg, authenticateClient [] header ≠ Gate.abort 401 msg := by
  have h : authenticateClient [] header = Gate.next := by
    simp [authenticateClient]
  refine ⟨h, ?_⟩
  intro msg
  rw [h]
  intro hc
  cases hc

/-! ## Theorems: live request log -/

theorem addLiveRequest_length_le (log : List LiveRequest) (call : LiveCall)
    (h : log.length ≤ 100) : (addLiveRequest log call).length ≤ 100 := by
  unfold addLiveRequest
  dsimp only
  split_ifs with hc
  · simp only [List.length_drop, List.length_append, List.length_singleton]
    omega
  · omega

/-- From a log within capacity, a sequence of appends leaves the last 100 records of the
old log followed by the new records. -/
theorem addLiveRequests_eq_drop (calls : List LiveCall) :
    ∀ log : List LiveRequest, log.length ≤ 100 →
      addLiveRequests log calls =
        (log ++ calls.map mkLiveRequest).drop (log.length + calls.length - 100) := by
  induction calls with
  | nil =>
    intro log h
    have h0 : log.length - 100 = 0 := by omega
    simp [addLiveRequests, h0]
  | cons c rest ih =>
    intro log h
    have hstep : addLiveRequests log (c :: rest) =
        addLiveRequests (addLiveRequest log c) rest := rfl
    have key : ∀ (x : LiveRequest) (a b : Nat) (l : List LiveRequest),
        a + 1 = b → List.drop a l = List.drop b (x :: l) := by
      intro x a b l hab
      subst hab
      rfl
    rw [hstep, ih _ (addLiveRequest_length_le log c h)]
    unfold addLiveRequest
    dsimp only
    split_ifs with hc
    · have hlen : log.length = 100 := by
        simp only [List.length_append, List.length_singleton] at hc
        omega
      have hne : log ≠ [] := by
        intro hnil
        rw [hnil] at hlen
        simp at hlen
      obtain ⟨x, xs, hx⟩ := List.exists_cons_of_ne_nil hne
      subst hx
      simp only [List.cons_append, List.drop_succ_cons, List.drop_zero, List.length_append,
        List.length_cons, List.length_nil, List.map_cons, List.append_assoc,
        List.nil_append] at hlen ⊢
      exact key x _ _ _ (by omega)
    · simp only [List.length_append, List.length_cons, List.length_nil, List.map_cons,
        List.append_assoc, List.cons_append, List.nil_append] at hc ⊢
      congr 1
      omega

/-- C9.  Starting from the empty log, after the calls `r1..rn` of `addLiveRequest` the log
is exactly the last `min n 100` records, in insertion order; after 101 calls it is
`r2..r101`, the first record being gone. -/
theorem addLiveRequest_keeps_last_100 (calls : List LiveCall) :
    addLiveRequests liveRequestsInit calls =
        (calls.map mkLiveRequest).drop (calls.length - min calls.length 100)
    ∧ (calls.length = 101 →
        addLiveRequests liveRequestsInit calls = (calls.map mkLiveRequest).tail) := by
  have h := addLiveRequests_eq_drop calls liveRequestsInit (by simp [liveRequestsInit])
  simp only [liveRequestsInit, List.length_nil, Nat.zero_add, List.nil_append] at h
  constructor
  · rw [liveRequestsInit, h]
    congr 1
    omega
  · intro h101
    rw [liveRequestsInit, h, h101]
    simp [List.drop_one]

/-- C9 at 101 calls whose first time stamps are 0, 1, ..., 100. -/
theorem addLiveRequest_keeps_last_100_witness :
    ((List.range 101).map fun i : Nat =>
        (⟨i, i, "POST", "/v1/chat/completions", 200, 0, "", "ua"⟩ : LiveCall)).length = 101
    ∧ addLiveRequests liveRequestsInit
        ((List.range 101).map fun i : Nat =>
          (⟨i, i, "POST", "/v1/chat/completions", 200, 0, "", "ua"⟩ : LiveCall)) =
        (((List.range 101).map fun i : Nat =>
          (⟨i, i, "POST", "/v1/chat/completions", 200, 0, "", "ua"⟩ : LiveCall)).map
            mkLiveRequest).tail :=
  ⟨by simp,
    (addLiveRequest_keeps_last_100
      ((List.range 101).map fun i : Nat =>
        (⟨i, i, "POST", "/v1/chat/completions", 200, 0, "", "ua"⟩ : LiveCall))).2 (by simp)⟩

/-- C10.  `length of the log ≤ 100` is an invariant: it holds for the initial empty log and
is preserved by every call of `addLiveRequest`. -/
theorem liveRequests_length_invariant :
    liveRequestsInit.length ≤ 100
    ∧ ∀ (log : List LiveRequest) (call : LiveCall),
        log.length ≤ 100 → (addLiveRequest log call).length ≤ 100 :=
  ⟨by simp [liveRequestsInit], addLiveRequest_length_le⟩

/-- C10 at the empty log and one call. -/
theorem liveRequests_length_invariant_witness :
    liveRequestsInit.length ≤ 100
    ∧ (addLiveRequest liveRequestsInit
        ⟨1, 2, "POST", "/v1/chat/completions", 400, 1500000, "", "ua"⟩).length ≤ 100 :=
  ⟨by decide,
    liveRequests_length_invariant.2 liveRequestsInit
      ⟨1, 2, "POST", "/v1/chat/completions", 400, 1500000, "", "ua"⟩ (by decide)⟩

/-! ## Theorems: request statistics -/

theorem recordRequestStats_total (stats : RequestStats) (since now : Int) (path : String)
    (status : Int) :
    (recordRequestStats stats since now path status).TotalRequests =
      stats.TotalRequests + 1 := by
  unfold recordRequestStats
  dsimp only
  split_ifs <;> rfl

theorem recordRequestStats_success (stats : RequestStats) (since now : Int) (path : String)
    (status : Int) (h : 200 ≤ status ∧ status < 300) :
    (recordRequestStats stats since now path status).SuccessfulRequests =
        stats.SuccessfulRequests + 1
    ∧ (recordRequestStats stats since now path status).FailedRequests =
        stats.FailedRequests := by
  have h2 : status ≥ 200 ∧ status < 300 := h
  unfold recordRequestStats
  dsimp only
  rw [if_pos h2]
  split_ifs <;> exact ⟨rfl, rfl⟩

theorem recordRequestStats_failure (stats : RequestStats) (since now : Int) (path : String)
    (status : Int) (h : ¬ (200 ≤ status ∧ status < 300)) :
    (recordRequestStats stats since now path status).SuccessfulRequests =
        stats.SuccessfulRequests
    ∧ (recordRequestStats stats since now path status).FailedRequests =
        stats.FailedRequests + 1 := by
  have h2 : ¬ (status ≥ 200 ∧ status < 300) := h
  unfold recordRequestStats
  dsimp only
  rw [if_neg h2]
  split_ifs <;> exact ⟨rfl, rfl⟩

theorem recordRequestStats_average (stats : RequestStats) (since now : Int) (path : String)
    (status : Int) (h : 0 ≤ stats.TotalRequests) :
    (recordRequestStats stats since now path status).AverageResponseTime =
      Int.tdiv (wrap64 (wrap64 (stats.AverageResponseTime * stats.TotalRequests) + since))
        (stats.TotalRequests + 1) := by
  have hpos : stats.TotalRequests + 1 > 0 := by omega
  unfold recordRequestStats
  dsimp only
  split_ifs <;> simp

/-- C11.  `TotalRequests = SuccessfulRequests + FailedRequests` is an invariant of the
statistics: it holds for the zero-valued initial `stats` and every call of
`recordRequestStats` preserves it, for every status code and duration. -/
theorem stats_total_is_sum :
    statsInit.TotalRequests = statsInit.SuccessfulRequests + statsInit.FailedRequests
    ∧ ∀ (stats : RequestStats) (since now : Int) (path : String) (status : Int),
        stats.TotalRequests = stats.SuccessfulRequests + stats.FailedRequests →
        (recordRequestStats stats since now path status).TotalRequests =
          (recordRequestStats stats since now path status).SuccessfulRequests
            + (recordRequestStats stats since now path status).FailedRequests := by
  refine ⟨rfl, ?_⟩
  intro stats since now path status hinv
  rw [recordRequestStats_total]
  by_cases h : 200 ≤ status ∧ status < 300
  · obtain ⟨hs, hf⟩ := recordRequestStats_success stats since now path status h
    rw [hs, hf, hinv]
    omega
  · obtain ⟨hs, hf⟩ := recordRequestStats_failure stats since now path status h
    rw [hs, hf, hinv]
    omega

/-- C11 at the initial statistics and one call with status 404. -/
theorem stats_total_is_sum_witness :
    statsInit.TotalRequests = statsInit.SuccessfulRequests + statsInit.FailedRequests
    ∧ (recordRequestStats statsInit 1500 7 "/v1/chat/completions" 404).TotalRequests =
        (recordRequestStats statsInit 1500 7 "/v1/chat/completions" 404).SuccessfulRequests
          + (recordRequestStats statsInit 1500 7 "/v1/chat/completions" 404).FailedRequests :=
  ⟨by decide,
    stats_total_is_sum.2 statsInit 1500 7 "/v1/chat/completions" 404 (by decide)⟩

/-- C12.  One call of `recordRequestStats` increases `TotalRequests` by exactly 1 and
exactly one outcome counter by exactly 1, leaving the other unchanged:
`SuccessfulRequests` if and only if `200 ≤ status < 300`, `FailedRequests` otherwise. -/
theorem recordRequestStats_counts (stats : RequestStats) (since now : Int) (path : String)
    (status : Int) :
    (recordRequestStats stats since now path status).TotalRequests = stats.TotalRequests + 1
    ∧ (((recordRequestStats stats since now path status).SuccessfulRequests =
            stats.SuccessfulRequests + 1
          ∧ (recordRequestStats stats since now path status).FailedRequests =
            stats.FailedRequests)
        ↔ (200 ≤ status ∧ status < 300))
    ∧ (((recordRequestStats stats since now path status).FailedRequests =
            stats.FailedRequests + 1
          ∧ (recordRequestStats stats since now path status).SuccessfulRequests =
            stats.SuccessfulRequests)
        ↔ ¬ (200 ≤ status ∧ status < 300)) := by
  refine ⟨recordRequestStats_total stats since now path status, ?_, ?_⟩
  · by_cases h : 200 ≤ status ∧ status < 300
    · exact ⟨fun _ => h, fun _ => recordRequestStats_success stats since now path status h⟩
    · obtain ⟨hs, hf⟩ := recordRequestStats_failure stats since now path status h
      constructor
      · intro hc
        rw [hs] at hc
        omega
      · intro hc
        exact absurd hc h
  · by_cases h : 200 ≤ status ∧ status < 300
    · obtain ⟨hs, hf⟩ := recordRequestStats_success stats since now path status h
      constructor
      · intro hc
        rw [hf] at hc
        omega
      · intro hc
        exact absurd h hc
    · obtain ⟨hs, hf⟩ := recordRequestStats_failure stats since now path status h
      exact ⟨fun _ => h, fun _ => ⟨hf, hs⟩⟩

theorem wrap64_of_range (x : Int) (h0 : 0 ≤ x) (h1 : x < 9223372036854775808) :
    wrap64 x = x := by
  unfold wrap64
  omega

/-- One recorded call keeps the running average between the exact mean and the exact
mean minus half of the number of earlier calls, as long as the sum of durations fits
in 63 bits. -/
theorem recordRequestStats_average_bounds (stats : RequestStats) (since now : Int)
    (path : String) (status : Int) (S : Int)
    (hN : 0 ≤ stats.TotalRequests) (ha : 0 ≤ stats.AverageResponseTime)
    (hle : stats.AverageResponseTime * stats.TotalRequests ≤ S)
    (hge : 2 * S ≤ 2 * (stats.AverageResponseTime * stats.TotalRequests)
        + stats.TotalRequests * (stats.TotalRequests - 1))
    (hd : 0 ≤ since) (hfit : S + since < 9223372036854775808) :
    0 ≤ (recordRequestStats stats since now path status).AverageResponseTime
    ∧ (recordRequestStats stats since now path status).AverageResponseTime
        * (stats.TotalRequests + 1) ≤ S + since
    ∧ 2 * (S + since) ≤
        2 * ((recordRequestStats stats since now path status).AverageResponseTime
          * (stats.TotalRequests + 1))
        + (stats.TotalRequests + 1) * (stats.TotalRequests + 1 - 1) := by
  rw [recordRequestStats_average stats since now path status hN]
  have hP : 0 ≤ stats.AverageResponseTime * stats.TotalRequests := Int.mul_nonneg ha hN
  rw [wrap64_of_range _ hP (by omega), wrap64_of_range _ (by omega) (by omega)]
  generalize stats.AverageResponseTime * stats.TotalRequests = P at *
  generalize stats.TotalRequests = N at *
  have hn : 0 < N + 1 := by omega
  have hT : 0 ≤ P + since := by omega
  rw [Int.tdiv_eq_ediv hT (by omega)]
  have h1 : (P + since) / (N + 1) * (N + 1) ≤ P + since := Int.ediv_mul_le _ (by omega)
  have h2 : P + since < (P + since) / (N + 1) * (N + 1) + (N + 1) :=
    Int.lt_ediv_add_one_mul_self _ hn |>.trans_eq (by ring)
  have h0 : 0 ≤ (P + since) / (N + 1) := Int.ediv_nonneg hT (by omega)
  generalize (P + since) / (N + 1) * (N + 1) = Q at *
  refine ⟨h0, by omega, ?_⟩
  have hsq : (N + 1) * (N + 1 - 1) = N * (N - 1) + 2 * N := by ring
  rw [hsq]
  generalize N * (N - 1) = R at *
  omega

theorem totalSince_cons (c : StatsCall) (rest : List StatsCall) :
    totalSince (c :: rest) = c.since + totalSince rest := by
  simp [totalSince]

theorem totalSince_nonneg (calls : List StatsCall) (h : ∀ c ∈ calls, 0 ≤ c.since) :
    0 ≤ totalSince calls := by
  induction calls with
  | nil => simp [totalSince]
  | cons c rest ih =>
    rw [totalSince_cons]
    have h1 := h c (List.mem_cons_self c rest)
    have h2 := ih fun x hx => h x (List.mem_cons_of_mem c hx)
    omega

/-- The bounds of `recordRequestStats_average_bounds` carried along a sequence of calls. -/
theorem recordRequests_average_bounds (calls : List StatsCall) :
    ∀ (stats : RequestStats) (S : Int),
      0 ≤ stats.TotalRequests → 0 ≤ stats.AverageResponseTime →
      stats.AverageResponseTime * stats.TotalRequests ≤ S →
      2 * S ≤ 2 * (stats.AverageResponseTime * stats.TotalRequests)
          + stats.TotalRequests * (stats.TotalRequests - 1) →
      (∀ c ∈ calls, 0 ≤ c.since) →
      S + totalSince calls < 9223372036854775808 →
      (recordRequests stats calls).TotalRequests = stats.TotalRequests + calls.length
      ∧ 0 ≤ (recordRequests stats calls).AverageResponseTime
      ∧ (recordRequests stats calls).AverageResponseTime
          * (recordRequests stats calls).TotalRequests ≤ S + totalSince calls
      ∧ 2 * (S + totalSince calls) ≤
          2 * ((recordRequests stats calls).AverageResponseTime
            * (recordRequests stats calls).TotalRequests)
          + (recordRequests stats calls).TotalRequests
            * ((recordRequests stats calls).TotalRequests - 1) := by
  induction calls with
  | nil =>
    intro stats S hN ha hle hge _ _
    simp only [recordRequests, List.foldl_nil, totalSince, List.map_nil, List.sum_nil,
      List.length_nil, Nat.cast_zero, add_zero]
    exact ⟨trivial, ha, hle, hge⟩
  | cons c rest ih =>
    intro stats S hN ha hle hge hpos hfit
    have hstep : recordRequests stats (c :: rest) =
        recordRequests (recordRequestStats stats c.since c.now c.path c.status) rest := rfl
    have hc : 0 ≤ c.since := hpos c (List.mem_cons_self c rest)
    have hrest : ∀ x ∈ rest, 0 ≤ x.since := fun x hx => hpos x (List.mem_cons_of_mem c hx)
    have hrest0 := totalSince_nonneg rest hrest
    rw [totalSince_cons] at hfit ⊢
    obtain ⟨b0, b1, b2⟩ :=
      recordRequestStats_average_bounds stats c.since c.now c.path c.status S hN ha hle hge hc
        (by omega)
    have htot := recordRequestStats_total stats c.since c.now c.path c.status
    rw [← htot] at b1 b2
    obtain ⟨r0, r1, r2, r3⟩ :=
      ih (recordRequestStats stats c.since c.now c.path c.status) (S + c.since)
        (by omega) b0 b1 b2 hrest (by omega)
    rw [hstep]
    refine ⟨?_, r1, ?_, ?_⟩
    · rw [r0, htot, List.length_cons]
      push_cast
      ring
    · rw [← add_assoc]
      exact r2
    · rw [← add_assoc]
      exact r3

/-- C13 (amended).  Starting from zero-valued statistics, after `N ≥ 1` calls of
`recordRequestStats` with non-negative durations whose sum fits in 63 bits,
`AverageResponseTime` never exceeds the exact arithmetic mean and falls short of it by
at most `(N - 1) / 2` nanoseconds; for `N ≤ 2` it differs from the mean by less than one
nanosecond. -/
theorem average_near_mean (calls : List StatsCall) (hne : calls ≠ [])
    (hpos : ∀ c ∈ calls, 0 ≤ c.since) (hfit : totalSince calls < 9223372036854775808) :
    (recordRequests statsInit calls).AverageResponseTime * (calls.length : Int)
        ≤ totalSince calls
    ∧ 2 * (totalSince calls
          - (recordRequests statsInit calls).AverageResponseTime * (calls.length : Int))
        ≤ (calls.length : Int) * ((calls.length : Int) - 1)
    ∧ (calls.length ≤ 2 →
        totalSince calls
          - (recordRequests statsInit calls).AverageResponseTime * (calls.length : Int)
        < (calls.length : Int)) := by
  obtain ⟨r0, _, r2, r3⟩ :=
    recordRequests_average_bounds calls statsInit 0 (by decide) (by decide) (by decide)
      (by decide) hpos (by omega)
  have hN : (recordRequests statsInit calls).TotalRequests = (calls.length : Int) := by
    rw [r0]
    simp [statsInit]
  rw [hN] at r2 r3
  have hlen : 0 < calls.length := List.length_pos.mpr hne
  generalize (recordRequests statsInit calls).AverageResponseTime * (calls.length : Int) = Q
    at r2 r3 ⊢
  refine ⟨by omega, by omega, ?_⟩
  intro h2
  have hcases : calls.length = 1 ∨ calls.length = 2 := by omega
  rcases hcases with h | h
  · rw [h] at r3 ⊢
    norm_num at r3 ⊢
    omega
  · rw [h] at r3 ⊢
    norm_num at r3 ⊢
    omega

/-- C13 at the two durations 10 and 21 (mean 15.5, stored average 15). -/
theorem average_near_mean_witness :
    ([⟨10, 5, "/v1/chat/completions", 200⟩, ⟨21, 6, "/v1/chat/completions", 500⟩] :
        List StatsCall) ≠ []
    ∧ (recordRequests statsInit
          [⟨10, 5, "/v1/chat/completions", 200⟩, ⟨21, 6, "/v1/chat/completions", 500⟩]
        ).AverageResponseTime
        * (([⟨10, 5, "/v1/chat/completions", 200⟩,
              ⟨21, 6, "/v1/chat/completions", 500⟩] : List StatsCall).length : Int)
        ≤ totalSince
          [⟨10, 5, "/v1/chat/completions", 200⟩, ⟨21, 6, "/v1/chat/completions", 500⟩] :=
  ⟨by decide,
    (average_near_mean
      [⟨10, 5, "/v1/chat/completions", 200⟩, ⟨21, 6, "/v1/chat/completions", 500⟩]
      (by decide) (by decide) (by decide)).1⟩

/-- C13, the claim as written fails: after the five durations 0, 1, 2, 3, 4 the stored
average is 0 while the exact mean is 2, so the two differ by two nanoseconds (five times
the average differs from the sum by 10, not by less than 5). -/
theorem average_two_nanoseconds_off :
    (recordRequests statsInit
        [⟨0, 5, "/v1/chat/completions", 200⟩, ⟨1, 6, "/v1/chat/completions", 200⟩,
          ⟨2, 7, "/v1/chat/completions", 200⟩, ⟨3, 8, "/v1/chat/completions", 200⟩,
          ⟨4, 9, "/v1/chat/completions", 200⟩]).AverageResponseTime = 0
    ∧ totalSince
        [⟨0, 5, "/v1/chat/completions", 200⟩, ⟨1, 6, "/v1/chat/completions", 200⟩,
          ⟨2, 7, "/v1/chat/completions", 200⟩, ⟨3, 8, "/v1/chat/completions", 200⟩,
          ⟨4, 9, "/v1/chat/completions", 200⟩] = 5 * 2
    ∧ ¬ (|totalSince
            [⟨0, 5, "/v1/chat/completions", 200⟩, ⟨1, 6, "/v1/chat/completions", 200⟩,
              ⟨2, 7, "/v1/chat/completions", 200⟩, ⟨3, 8, "/v1/chat/completions", 200⟩,
              ⟨4, 9, "/v1/chat/completions", 200⟩]
          - 5 * (recordRequests statsInit
            [⟨0, 5, "/v1/chat/completions", 200⟩, ⟨1, 6, "/v1/chat/completions", 200⟩,
              ⟨2, 7, "/v1/chat/completions", 200⟩, ⟨3, 8, "/v1/chat/completions", 200⟩,
              ⟨4, 9, "/v1/chat/completions", 200⟩]).AverageResponseTime| < 5) := by
  decide

/-! ## Theorems: the handler `chatCompletions` -/

theorem JSONPanics_of_valid (code : Int) (h1 : 100 ≤ code) (h2 : code ≤ 999) :
    JSONPanics code = false := by
  simp only [JSONPanics, invalidWriteHeaderCode, Bool.and_eq_false_imp, decide_eq_true_eq,
    decide_eq_false_iff_not]
  intro _
  omega

theorem JSONStatus_of_valid (code : Int) (h1 : 100 ≤ code) : JSONStatus code = code := by
  have h : 0 < code := by omega
  simp only [JSONStatus, h, if_true]

theorem afterJSON_of_valid (code : Int) (rest : List Call) (h1 : 100 ≤ code)
    (h2 : code ≤ 999) : afterJSON code rest = rest := by
  simp [afterJSON, JSONPanics_of_valid code h1 h2]

theorem afterJSON_200 (rest : List Call) : afterJSON 200 rest = rest :=
  afterJSON_of_valid 200 rest (by decide) (by decide)

theorem afterJSON_400 (rest : List Call) : afterJSON 400 rest = rest :=
  afterJSON_of_valid 400 rest (by decide) (by decide)

theorem afterJSON_500 (rest : List Call) : afterJSON 500 rest = rest :=
  afterJSON_of_valid 500 rest (by decide) (by decide)

theorem chatCompletions_parse_error (config : Config)
    (backend : TalkAIRequest → Option BackendResponse) (uuid : Nat → String) (clock : Clock)
    (c : Inbound) (h : c.Body = none) :
    chatCompletions config backend uuid clock c =
      [Call.JSON 400 (Body.error "Invalid request body")]
        ++ recordOutcome clock c.Path c.UserAgent 400 := by
  simp only [chatCompletions, h, afterJSON_400]

theorem chatCompletions_no_messages (config : Config)
    (backend : TalkAIRequest → Option BackendResponse) (uuid : Nat → String) (clock : Clock)
    (c : Inbound) (req : ChatCompletionRequest) (h : c.Body = some req)
    (hm : req.Messages = []) :
    chatCompletions config backend uuid clock c =
      [Call.JSON 400 (Body.error "Messages required")]
        ++ recordOutcome clock c.Path c.UserAgent 400 := by
  simp only [chatCompletions, h, hm, List.length_nil, if_true, afterJSON_400]

theorem chatCompletions_backend_error (config : Config)
    (backend : TalkAIRequest → Option BackendResponse) (uuid : Nat → String) (clock : Clock)
    (c : Inbound) (req : ChatCompletionRequest) (h : c.Body = some req)
    (hm : req.Messages ≠ [])
    (hb : backend (buildTalkAIRequest uuid (applyDefaults config c.Query req)) = none) :
    chatCompletions config backend uuid clock c =
      [Call.sendToTalkAI (buildTalkAIRequest uuid (applyDefaults config c.Query req)),
        Call.JSON 500 (Body.error "Internal error")]
        ++ recordOutcome clock c.Path c.UserAgent 500 := by
  have hl : req.Messages.length ≠ 0 := fun hc => hm (List.length_eq_zero.mp hc)
  simp only [chatCompletions, h, hl, if_false, hb, afterJSON_500]

theorem chatCompletions_backend_status (config : Config)
    (backend : TalkAIRequest → Option BackendResponse) (uuid : Nat → String) (clock : Clock)
    (c : Inbound) (req : ChatCompletionRequest) (resp : BackendResponse)
    (h : c.Body = some req) (hm : req.Messages ≠ [])
    (hb : backend (buildTalkAIRequest uuid (applyDefaults config c.Query req)) = some resp)
    (hs : resp.StatusCode ≠ 200) :
    chatCompletions config backend uuid clock c =
      [Call.sendToTalkAI (buildTalkAIRequest uuid (applyDefaults config c.Query req)),
        Call.JSON resp.StatusCode (Body.error "TalkAI API error")]
        ++ afterJSON resp.StatusCode
          (recordOutcome clock c.Path c.UserAgent resp.StatusCode) := by
  have hl : req.Messages.length ≠ 0 := fun hc => hm (List.length_eq_zero.mp hc)
  simp only [chatCompletions, h, hl, if_false, hb, hs, ne_eq, not_false_eq_true, if_true]

theorem chatCompletions_backend_status_valid (config : Config)
    (backend : TalkAIRequest → Option BackendResponse) (uuid : Nat → String) (clock : Clock)
    (c : Inbound) (req : ChatCompletionRequest) (resp : BackendResponse)
    (h : c.Body = some req) (hm : req.Messages ≠ [])
    (hb : backend (buildTalkAIRequest uuid (applyDefaults config c.Query req)) = some resp)
    (hs : resp.StatusCode ≠ 200) (h1 : 100 ≤ resp.StatusCode) (h2 : resp.StatusCode ≤ 999) :
    chatCompletions config backend uuid clock c =
      [Call.sendToTalkAI (buildTalkAIRequest uuid (applyDefaults config c.Query req)),
        Call.JSON resp.StatusCode (Body.error "TalkAI API error")]
        ++ recordOutcome clock c.Path c.UserAgent resp.StatusCode := by
  rw [chatCompletions_backend_status config backend uuid clock c req resp h hm hb hs,
    afterJSON_of_valid _ _ h1 h2]

/-- A backend status that `WriteHeader` rejects makes `c.JSON` panic: the handler ends
there, before `recordRequestStats` and `addLiveRequest`. -/
theorem chatCompletions_backend_status_panics (config : Config)
    (backend : TalkAIRequest → Option BackendResponse) (uuid : Nat → String) (clock : Clock)
    (c : Inbound) (req : ChatCompletionRequest) (resp : BackendResponse)
    (h : c.Body = some req) (hm : req.Messages ≠ [])
    (hb : backend (buildTalkAIRequest uuid (applyDefaults config c.Query req)) = some resp)
    (hp : JSONPanics resp.StatusCode = true) :
    chatCompletions config backend uuid clock c =
      [Call.sendToTalkAI (buildTalkAIRequest uuid (applyDefaults config c.Query req)),
        Call.JSON resp.StatusCode (Body.error "TalkAI API error")] := by
  have hs : resp.StatusCode ≠ 200 := by
    intro h200
    rw [h200] at hp
    exact absurd hp (by decide)
  rw [chatCompletions_backend_status config backend uuid clock c req resp h hm hb hs]
  simp [afterJSON, hp]

theorem chatCompletions_backend_ok (config : Config)
    (backend : TalkAIRequest → Option BackendResponse) (uuid : Nat → String) (clock : Clock)
    (c : Inbound) (req : ChatCompletionRequest) (resp : BackendResponse)
    (h : c.Body = some req) (hm : req.Messages ≠ [])
    (hb : backend (buildTalkAIRequest uuid (applyDefaults config c.Query req)) = some resp)
    (hs : resp.StatusCode = 200) :
    chatCompletions config backend uuid clock c =
      [Call.sendToTalkAI (buildTalkAIRequest uuid (applyDefaults config c.Query req)),
        translated uuid clock (applyDefaults config c.Query req) resp]
        ++ recordOutcome clock c.Path c.UserAgent 200 := by
  have hl : req.Messages.length ≠ 0 := fun hc => hm (List.length_eq_zero.mp hc)
  simp only [chatCompletions, h, hl, if_false, hb, hs, ne_eq, not_true_eq_false, translated,
    afterJSON_200]
  split_ifs <;> rfl

theorem statusSent_translated (uuid : Nat → String) (clock : Clock)
    (req : ChatCompletionRequest) (resp : BackendResponse) (pre : List Call) :
    statusSent (translated uuid clock req resp :: pre) = 200 :: statusSent pre := by
  unfold translated
  split_ifs <;> rfl

/-- When the backend only answers with status codes that `WriteHeader` accepts, every path
of `chatCompletions` is: calls that send one status to the client and touch neither the
statistics nor the log, followed by `recordOutcome` with that status. -/
theorem chatCompletions_shape (config : Config)
    (backend : TalkAIRequest → Option BackendResponse) (uuid : Nat → String) (clock : Clock)
    (c : Inbound)
    (hvalid : ∀ r resp, backend r = some resp →
      100 ≤ resp.StatusCode ∧ resp.StatusCode ≤ 999) :
    ∃ (pre : List Call) (s : Int),
      chatCompletions config backend uuid clock c =
        pre ++ recordOutcome clock c.Path c.UserAgent s
      ∧ statusSent pre = [s] ∧ statsRecorded pre = [] ∧ logRecorded pre = []
      ∧ ∀ st : ServerState, runCalls st pre = st := by
  cases hbody : c.Body with
  | none =>
    exact ⟨_, _, chatCompletions_parse_error config backend uuid clock c hbody, rfl, rfl, rfl,
      fun _ => rfl⟩
  | some req =>
    by_cases hm : req.Messages = []
    · exact ⟨_, _, chatCompletions_no_messages config backend uuid clock c req hbody hm, rfl,
        rfl, rfl, fun _ => rfl⟩
    · cases hb : backend (buildTalkAIRequest uuid (applyDefaults config c.Query req)) with
      | none =>
        exact ⟨_, _, chatCompletions_backend_error config backend uuid clock c req hbody hm hb,
          rfl, rfl, rfl, fun _ => rfl⟩
      | some resp =>
        by_cases hs : resp.StatusCode = 200
        · refine ⟨_, _,
            chatCompletions_backend_ok config backend uuid clock c req resp hbody hm hb hs,
            ?_, ?_, ?_, ?_⟩
          · unfold translated
            split_ifs <;> rfl
          · unfold translated
            split_ifs <;> rfl
          · unfold translated
            split_ifs <;> rfl
          · intro st
            unfold translated
            split_ifs <;> rfl
        · obtain ⟨h1, h2⟩ := hvalid _ resp hb
          refine ⟨_, _,
            chatCompletions_backend_status_valid config backend uuid clock c req resp hbody hm
              hb hs h1 h2, ?_, rfl, rfl, fun _ => rfl⟩
          simp [statusSent, JSONPanics_of_valid _ h1 h2, JSONStatus_of_valid _ h1]

theorem statusSent_append (a b : List Call) :
    statusSent (a ++ b) = statusSent a ++ statusSent b := by
  simp [statusSent, List.filterMap_append]

theorem statsRecorded_append (a b : List Call) :
    statsRecorded (a ++ b) = statsRecorded a ++ statsRecorded b := by
  simp [statsRecorded, List.filterMap_append]

theorem logRecorded_append (a b : List Call) :
    logRecorded (a ++ b) = logRecorded a ++ logRecorded b := by
  simp [logRecorded, List.filterMap_append]

theorem runCalls_append (st : ServerState) (a b : List Call) :
    runCalls st (a ++ b) = runCalls (runCalls st a) b := by
  simp [runCalls, List.foldl_append]

/-- The effect of `recordOutcome` on the globals: one `recordRequestStats` and one
`addLiveRequest`, with the given status. -/
theorem runCalls_recordOutcome (st : ServerState) (clock : Clock) (path userAgent : String)
    (status : Int) :
    runCalls st (recordOutcome clock path userAgent status) =
      { stats := recordRequestStats st.stats clock.since2 clock.statsNow path status
        liveRequests := addLiveRequest st.liveRequests
          { now1 := clock.logNow1, now2 := clock.logNow2, method := "POST", path := path,
            status := status, duration := clock.since1, unused := "",
            userAgent := userAgent } } := rfl

/-- The record appended by `addLiveRequest` is the last of the log. -/
theorem addLiveRequest_getLast (log : List LiveRequest) (call : LiveCall) :
    (addLiveRequest log call).getLast? = some (mkLiveRequest call) := by
  simp only [addLiveRequest]
  split_ifs with h
  · cases log with
    | nil => simp at h
    | cons x xs => simp [List.getLast?_append]
  · simp [List.getLast?_append]

/-- When the backend only answers with status codes that `WriteHeader` accepts (100 to
999), every path of `chatCompletions` sends exactly one status code `s` to the client and
calls `recordRequestStats` exactly once and `addLiveRequest` exactly once, both with that
same `s`; the call increases `TotalRequests` by exactly 1 and the log after it is the log
before it with one `addLiveRequest` of a record of status `s`. -/
theorem chatCompletions_records_once_of_valid (config : Config)
    (backend : TalkAIRequest → Option BackendResponse) (uuid : Nat → String) (clock : Clock)
    (c : Inbound) (st : ServerState)
    (hvalid : ∀ r resp, backend r = some resp →
      100 ≤ resp.StatusCode ∧ resp.StatusCode ≤ 999) :
    ∃ s : Int,
      statusSent (chatCompletions config backend uuid clock c) = [s]
      ∧ statsRecorded (chatCompletions config backend uuid clock c) = [s]
      ∧ logRecorded (chatCompletions config backend uuid clock c) = [s]
      ∧ (runCalls st (chatCompletions config backend uuid clock c)).stats.TotalRequests =
          st.stats.TotalRequests + 1
      ∧ ∃ call : LiveCall, call.status = s
          ∧ (runCalls st (chatCompletions config backend uuid clock c)).liveRequests =
              addLiveRequest st.liveRequests call
          ∧ (runCalls st (chatCompletions config backend uuid clock c)).liveRequests.getLast? =
              some (mkLiveRequest call) := by
  obtain ⟨pre, s, hshape, h1, h2, h3, h4⟩ :=
    chatCompletions_shape config backend uuid clock c hvalid
  refine ⟨s, ?_, ?_, ?_, ?_, ?_⟩
  · rw [hshape, statusSent_append, h1]
    rfl
  · rw [hshape, statsRecorded_append, h2]
    rfl
  · rw [hshape, logRecorded_append, h3]
    rfl
  · rw [hshape, runCalls_append, h4, runCalls_recordOutcome]
    exact recordRequestStats_total st.stats clock.since2 clock.statsNow c.Path s
  · refine ⟨⟨clock.logNow1, clock.logNow2, "POST", c.Path, s, clock.since1, "", c.UserAgent⟩,
      rfl, ?_, ?_⟩
    · rw [hshape, runCalls_append, h4, runCalls_recordOutcome]
    · rw [hshape, runCalls_append, h4, runCalls_recordOutcome]
      exact addLiveRequest_getLast _ _

/-- C14, evaluation at the failing inputs.  A request that parses and has messages, with
a backend answering status 99: `c.JSON(99, ...)` panics, so the handler ends after it and
neither `recordRequestStats` nor `addLiveRequest` is called.  With a backend answering
status 0: the client is sent status 200 while 0 is what is recorded. -/
theorem chatCompletions_unrecorded_on_panic :
    JSONPanics 99 = true
    ∧ chatCompletions ⟨9091, [], false, "dm", ⟨1⟩, 300, false, true⟩
        (fun _ => some ⟨99, ⟨"data: x\n", false⟩⟩) (fun _ => "id") ⟨1, 2, 3, 4, 5, 6⟩
        ⟨"/v1/chat/completions", "ua", [], none,
          some ⟨"m", [⟨"user", "hi"⟩], false, none⟩⟩ =
      [Call.sendToTalkAI ⟨"chat", [⟨"id", "you", "hi"⟩], ⟨"m", some ⟨1⟩⟩⟩,
        Call.JSON 99 (Body.error "TalkAI API error")]
    ∧ statsRecorded (chatCompletions ⟨9091, [], false, "dm", ⟨1⟩, 300, false, true⟩
        (fun _ => some ⟨99, ⟨"data: x\n", false⟩⟩) (fun _ => "id") ⟨1, 2, 3, 4, 5, 6⟩
        ⟨"/v1/chat/completions", "ua", [], none,
          some ⟨"m", [⟨"user", "hi"⟩], false, none⟩⟩) = []
    ∧ logRecorded (chatCompletions ⟨9091, [], false, "dm", ⟨1⟩, 300, false, true⟩
        (fun _ => some ⟨99, ⟨"data: x\n", false⟩⟩) (fun _ => "id") ⟨1, 2, 3, 4, 5, 6⟩
        ⟨"/v1/chat/completions", "ua", [], none,
          some ⟨"m", [⟨"user", "hi"⟩], false, none⟩⟩) = []
    ∧ runCalls ⟨statsInit, liveRequestsInit⟩
        (chatCompletions ⟨9091, [], false, "dm", ⟨1⟩, 300, false, true⟩
          (fun _ => some ⟨99, ⟨"data: x\n", false⟩⟩) (fun _ => "id") ⟨1, 2, 3, 4, 5, 6⟩
          ⟨"/v1/chat/completions", "ua", [], none,
            some ⟨"m", [⟨"user", "hi"⟩], false, none⟩⟩) = ⟨statsInit, liveRequestsInit⟩
    ∧ statusSent (chatCompletions ⟨9091, [], false, "dm", ⟨1⟩, 300, false, true⟩
        (fun _ => some ⟨0, ⟨"data: x\n", false⟩⟩) (fun _ => "id") ⟨1, 2, 3, 4, 5, 6⟩
        ⟨"/v1/chat/completions", "ua", [], none,
          some ⟨"m", [⟨"user", "hi"⟩], false, none⟩⟩) = [200]
    ∧ statsRecorded (chatCompletions ⟨9091, [], false, "dm", ⟨1⟩, 300, false, true⟩
        (fun _ => some ⟨0, ⟨"data: x\n", false⟩⟩) (fun _ => "id") ⟨1, 2, 3, 4, 5, 6⟩
        ⟨"/v1/chat/completions", "ua", [], none,
          some ⟨"m", [⟨"user", "hi"⟩], false, none⟩⟩) = [0] := by
  decide

/-! ## Theorems: defaults and the backend request -/

theorem applyDefaults_Model (config : Config) (query : List (String × List String))
    (req : ChatCompletionRequest) :
    (applyDefaults config query req).Model =
      if req.Model = "" then config.DefaultModel else req.Model := by
  unfold applyDefaults
  dsimp only
  split_ifs <;> rfl

theorem applyDefaults_Temperature (config : Config) (query : List (String × List String))
    (req : ChatCompletionRequest) :
    (applyDefaults config query req).Temperature =
      some (req.Temperature.getD config.DefaultTemp) := by
  unfold applyDefaults
  dsimp only
  cases ht : req.Temperature with
  | none => split_ifs <;> simp_all
  | some t => split_ifs <;> simp_all

theorem applyDefaults_Stream (config : Config) (query : List (String × List String))
    (req : ChatCompletionRequest) :
    (applyDefaults config query req).Stream =
      if QueryGet query "stream" = "" ∧ req.Stream = false then config.DefaultStream
      else req.Stream := by
  unfold applyDefaults
  dsimp only
  cases hs : req.Stream <;> split_ifs <;> simp_all

theorem applyDefaults_Messages (config : Config) (query : List (String × List String))
    (req : ChatCompletionRequest) :
    (applyDefaults config query req).Messages = req.Messages := by
  unfold applyDefaults
  dsimp only
  split_ifs <;> rfl

theorem QueryGet_absent (query : List (String × List String)) (key : String)
    (h : ∀ kv ∈ query, kv.1 ≠ key) : QueryGet query key = "" := by
  have hf : (query.find? fun kv => decide (kv.1 = key)) = none := by
    rw [List.find?_eq_none]
    intro kv hkv
    simpa using h kv hkv
  simp only [QueryGet, hf]

/-- C15 (amended).  Effective streaming mode of `chatCompletions`: a body flag `true` is
kept; with a body flag `false`, the configured `defaultStream` is used when
`url.Values.Get("stream")` is empty, which covers the absent parameter and also a
parameter supplied with an empty value, and the body value `false` is kept only when the
parameter has a non-empty value. -/
theorem effective_stream_mode (config : Config) (query : List (String × List String))
    (req : ChatCompletionRequest) :
    (req.Stream = true → (applyDefaults config query req).Stream = true)
    ∧ (req.Stream = false → QueryGet query "stream" = "" →
        (applyDefaults config query req).Stream = config.DefaultStream)
    ∧ (req.Stream = false → QueryGet query "stream" ≠ "" →
        (applyDefaults config query req).Stream = false)
    ∧ ((∀ kv ∈ query, kv.1 ≠ "stream") → QueryGet query "stream" = "") := by
  refine ⟨?_, ?_, ?_, QueryGet_absent query "stream"⟩
  · intro h
    rw [applyDefaults_Stream, h]
    simp
  · intro h hq
    rw [applyDefaults_Stream, h, hq]
    simp
  · intro h hq
    rw [applyDefaults_Stream, h]
    simp [hq]

/-- C15 at a default of `true`, a body flag `false`, and the query `stream=1`. -/
theorem effective_stream_mode_witness :
    (⟨"m", [⟨"user", "hi"⟩], false, none⟩ : ChatCompletionRequest).Stream = false
    ∧ QueryGet [("stream", ["1"])] "stream" ≠ ""
    ∧ (applyDefaults ⟨9091, [], true, "dm", ⟨1⟩, 300, false, true⟩ [("stream", ["1"])]
        ⟨"m", [⟨"user", "hi"⟩], false, none⟩).Stream = false :=
  ⟨rfl, by decide,
    (effective_stream_mode ⟨9091, [], true, "dm", ⟨1⟩, 300, false, true⟩ [("stream", ["1"])]
      ⟨"m", [⟨"user", "hi"⟩], false, none⟩).2.2.1 rfl (by decide)⟩

/-- C15, the claim as written fails: with the URL query `stream=` (parameter supplied, empty
value), a body flag `false` and a default of `true`, the effective mode is the default
`true`, not the body value `false`. -/
theorem effective_stream_mode_empty_parameter :
    (∃ kv ∈ [("stream", [""])], kv.1 = "stream")
    ∧ (⟨"m", [⟨"user", "hi"⟩], false, none⟩ : ChatCompletionRequest).Stream = false
    ∧ (applyDefaults ⟨9091, [], true, "dm", ⟨1⟩, 300, false, true⟩ [("stream", [""])]
        ⟨"m", [⟨"user", "hi"⟩], false, none⟩).Stream = true := by
  decide

theorem buildTalkAIRequest_fields (uuid : Nat → String) (req : ChatCompletionRequest)
    (t : Float64) (ht : req.Temperature = some t) :
    (buildTalkAIRequest uuid req).Type_ = "chat"
    ∧ (buildTalkAIRequest uuid req).Settings.model = req.Model
    ∧ (buildTalkAIRequest uuid req).Settings.temperature = some t
    ∧ (buildTalkAIRequest uuid req).MessagesHistory = messagesHistory uuid req.Messages := by
  simp [buildTalkAIRequest, ht]

/-- A request that parses and has messages makes exactly one backend call, with the
request built from the request after defaults. -/
theorem backendCalls_chatCompletions (config : Config)
    (backend : TalkAIRequest → Option BackendResponse) (uuid : Nat → String) (clock : Clock)
    (c : Inbound) (req : ChatCompletionRequest) (h : c.Body = some req)
    (hm : req.Messages ≠ []) :
    backendCalls (chatCompletions config backend uuid clock c) =
      [buildTalkAIRequest uuid (applyDefaults config c.Query req)] := by
  cases hb : backend (buildTalkAIRequest uuid (applyDefaults config c.Query req)) with
  | none =>
    rw [chatCompletions_backend_error config backend uuid clock c req h hm hb]
    rfl
  | some resp =>
    by_cases hs : resp.StatusCode = 200
    · rw [chatCompletions_backend_ok config backend uuid clock c req resp h hm hb hs]
      unfold translated
      split_ifs <;> rfl
    · rw [chatCompletions_backend_status config backend uuid clock c req resp h hm hb hs]
      unfold afterJSON
      split_ifs <;> rfl

/-- C16.  For every valid request (the body parses and has messages) `chatCompletions`
sends exactly one backend request; its type is `chat`, its `settings.model` is the
request's model when that is non-empty and the configured `defaultModel` otherwise, and
its `settings.temperature` is the request's temperature when one is supplied (any value,
zero included) and the configured `defaultTemperature` otherwise. -/
theorem chatCompletions_backend_settings (config : Config)
    (backend : TalkAIRequest → Option BackendResponse) (uuid : Nat → String) (clock : Clock)
    (c : Inbound) (req : ChatCompletionRequest) (h : c.Body = some req)
    (hm : req.Messages ≠ []) :
    ∃ r : TalkAIRequest,
      backendCalls (chatCompletions config backend uuid clock c) = [r]
      ∧ r.Type_ = "chat"
      ∧ r.Settings.model = (if req.Model = "" then config.DefaultModel else req.Model)
      ∧ (∀ t, req.Temperature = some t → r.Settings.temperature = some t)
      ∧ (req.Temperature = none → r.Settings.temperature = some config.DefaultTemp) := by
  obtain ⟨f1, f2, f3, _⟩ :=
    buildTalkAIRequest_fields uuid (applyDefaults config c.Query req)
      (req.Temperature.getD config.DefaultTemp) (applyDefaults_Temperature config c.Query req)
  refine ⟨_, backendCalls_chatCompletions config backend uuid clock c req h hm, f1, ?_, ?_, ?_⟩
  · rw [f2, applyDefaults_Model]
  · intro t ht
    rw [f3, ht]
    rfl
  · intro ht
    rw [f3, ht]
    rfl

/-- C16 at a request without model and with temperature zero. -/
theorem chatCompletions_backend_settings_witness :
    ∃ r : TalkAIRequest,
      backendCalls (chatCompletions ⟨9091, [], false, "dm", ⟨1⟩, 300, false, true⟩
        (fun _ => none) (fun _ => "id") ⟨1, 2, 3, 4, 5, 6⟩
        ⟨"/v1/chat/completions", "ua", [], none,
          some ⟨"", [⟨"user", "hi"⟩], false, some ⟨0⟩⟩⟩) = [r]
      ∧ r.Type_ = "chat"
      ∧ r.Settings.model = "dm"
      ∧ r.Settings.temperature = some ⟨0⟩ := by
  obtain ⟨r, h1, h2, h3, h4, _⟩ :=
    chatCompletions_backend_settings ⟨9091, [], false, "dm", ⟨1⟩, 300, false, true⟩
      (fun _ => none) (fun _ => "id") ⟨1, 2, 3, 4, 5, 6⟩
      ⟨"/v1/chat/completions", "ua", [], none, some ⟨"", [⟨"user", "hi"⟩], false, some ⟨0⟩⟩⟩
      ⟨"", [⟨"user", "hi"⟩], false, some ⟨0⟩⟩ rfl (by decide)
  exact ⟨r, h1, h2, h3, h4 ⟨0⟩ rfl⟩

/-! ## Theorems: error paths of the handler and of the route group -/

/-- C17.  When the parsed request has no messages, `chatCompletions` answers 400 with the
error body `Messages required`, makes no backend call, and afterwards the statistics
show one more total request and one more failed request (successful unchanged) and the
log is the log before with one `addLiveRequest` of a record of status 400. -/
theorem chatCompletions_empty_messages (config : Config)
    (backend : TalkAIRequest → Option BackendResponse) (uuid : Nat → String) (clock : Clock)
    (c : Inbound) (req : ChatCompletionRequest) (st : ServerState)
    (h : c.Body = some req) (hm : req.Messages = []) :
    chatCompletions config backend uuid clock c =
        [Call.JSON 400 (Body.error "Messages required")]
          ++ recordOutcome clock c.Path c.UserAgent 400
    ∧ statusSent (chatCompletions config backend uuid clock c) = [400]
    ∧ backendCalls (chatCompletions config backend uuid clock c) = []
    ∧ (runCalls st (chatCompletions config backend uuid clock c)).stats.TotalRequests =
        st.stats.TotalRequests + 1
    ∧ (runCalls st (chatCompletions config backend uuid clock c)).stats.FailedRequests =
        st.stats.FailedRequests + 1
    ∧ (runCalls st (chatCompletions config backend uuid clock c)).stats.SuccessfulRequests =
        st.stats.SuccessfulRequests
    ∧ (runCalls st (chatCompletions config backend uuid clock c)).liveRequests =
        addLiveRequest st.liveRequests
          ⟨clock.logNow1, clock.logNow2, "POST", c.Path, 400, clock.since1, "", c.UserAgent⟩
    ∧ ((runCalls st (chatCompletions config backend uuid clock c)).liveRequests.getLast?.map
        fun r => r.Status) = some 400 := by
  have hshape := chatCompletions_no_messages config backend uuid clock c req h hm
  have hrun : runCalls st (chatCompletions config backend uuid clock c) =
      runCalls st (recordOutcome clock c.Path c.UserAgent 400) := by
    rw [hshape]
    rfl
  have hfail : ¬ ((200 : Int) ≤ 400 ∧ (400 : Int) < 300) := by decide
  obtain ⟨hs, hf⟩ :=
    recordRequestStats_failure st.stats clock.since2 clock.statsNow c.Path 400 hfail
  refine ⟨hshape, ?_, ?_, ?_, ?_, ?_, ?_, ?_⟩
  · rw [hshape]
    rfl
  · rw [hshape]
    rfl
  · rw [hrun, runCalls_recordOutcome]
    exact recordRequestStats_total st.stats clock.since2 clock.statsNow c.Path 400
  · rw [hrun, runCalls_recordOutcome]
    exact hf
  · rw [hrun, runCalls_recordOutcome]
    exact hs
  · rw [hrun, runCalls_recordOutcome]
  · rw [hrun, runCalls_recordOutcome]
    simp only [addLiveRequest_getLast, Option.map_some', mkLiveRequest]

/-- C17 at a request with an empty message list, from the initial globals. -/
theorem chatCompletions_empty_messages_witness :
    (⟨"m", [], false, none⟩ : ChatCompletionRequest).Messages = []
    ∧ statusSent (chatCompletions ⟨9091, [], false, "dm", ⟨1⟩, 300, false, true⟩
        (fun _ => none) (fun _ => "id") ⟨1, 2, 3, 4, 5, 6⟩
        ⟨"/v1/chat/completions", "ua", [], none, some ⟨"m", [], false, none⟩⟩) = [400] :=
  ⟨rfl,
    (chatCompletions_empty_messages ⟨9091, [], false, "dm", ⟨1⟩, 300, false, true⟩
      (fun _ => none) (fun _ => "id") ⟨1, 2, 3, 4, 5, 6⟩
      ⟨"/v1/chat/completions", "ua", [], none, some ⟨"m", [], false, none⟩⟩
      ⟨"m", [], false, none⟩ ⟨statsInit, liveRequestsInit⟩ rfl rfl).2.1⟩

theorem error_not_mem_ok_path (uuid : Nat → String) (clock : Clock)
    (req : ChatCompletionRequest) (resp : BackendResponse) (r : TalkAIRequest)
    (path userAgent : String) (s : Int) (msg : String) :
    Call.JSON s (Body.error msg) ∉
      [Call.sendToTalkAI r, translated uuid clock req resp]
        ++ recordOutcome clock path userAgent 200 := by
  unfold translated handleNormalResponse recordOutcome
  split_ifs <;> simp

/-- For a request that parses and has messages and a backend that answers with status
`s`: `chatCompletions` takes the generic backend-error branch, `c.JSON(s, ...)` with body
`TalkAI API error`, if and only if `s` is not 200; when `s` is a code from 201 to 999,
the client is sent status `s`, the same `s` is passed to `recordRequestStats` and
`addLiveRequest`, and the error body is written unless `s` is 204 or 304; for status 200
the backend body is translated (streamed or aggregated) and 200 is recorded. -/
theorem chatCompletions_backend_status_forwarded (config : Config)
    (backend : TalkAIRequest → Option BackendResponse) (uuid : Nat → String) (clock : Clock)
    (c : Inbound) (req : ChatCompletionRequest) (resp : BackendResponse)
    (h : c.Body = some req) (hm : req.Messages ≠ [])
    (hb : backend (buildTalkAIRequest uuid (applyDefaults config c.Query req)) = some resp) :
    ((∃ s, Call.JSON s (Body.error "TalkAI API error")
          ∈ chatCompletions config backend uuid clock c) ↔ resp.StatusCode ≠ 200)
    ∧ (201 ≤ resp.StatusCode → resp.StatusCode ≤ 999 →
        chatCompletions config backend uuid clock c =
            [Call.sendToTalkAI (buildTalkAIRequest uuid (applyDefaults config c.Query req)),
              Call.JSON resp.StatusCode (Body.error "TalkAI API error")]
              ++ recordOutcome clock c.Path c.UserAgent resp.StatusCode
        ∧ statusSent (chatCompletions config backend uuid clock c) = [resp.StatusCode]
        ∧ statsRecorded (chatCompletions config backend uuid clock c) = [resp.StatusCode]
        ∧ logRecorded (chatCompletions config backend uuid clock c) = [resp.StatusCode]
        ∧ bodiesSent (chatCompletions config backend uuid clock c) =
            if resp.StatusCode = 204 ∨ resp.StatusCode = 304 then []
            else [Body.error "TalkAI API error"])
    ∧ (resp.StatusCode = 200 →
        chatCompletions config backend uuid clock c =
          [Call.sendToTalkAI (buildTalkAIRequest uuid (applyDefaults config c.Query req)),
            translated uuid clock (applyDefaults config c.Query req) resp]
            ++ recordOutcome clock c.Path c.UserAgent 200) := by
  refine ⟨?_, ?_, chatCompletions_backend_ok config backend uuid clock c req resp h hm hb⟩
  · constructor
    · rintro ⟨s, hs⟩ h200
      rw [chatCompletions_backend_ok config backend uuid clock c req resp h hm hb h200] at hs
      exact error_not_mem_ok_path uuid clock _ resp _ _ _ s _ hs
    · intro hne
      refine ⟨resp.StatusCode, ?_⟩
      rw [chatCompletions_backend_status config backend uuid clock c req resp h hm hb hne]
      simp
  · intro h1 h2
    have hne : resp.StatusCode ≠ 200 := by omega
    have hshape := chatCompletions_backend_status_valid config backend uuid clock c req resp h
      hm hb hne (by omega) h2
    have hp := JSONPanics_of_valid resp.StatusCode (by omega) h2
    have hst := JSONStatus_of_valid resp.StatusCode (by omega)
    refine ⟨hshape, ?_, ?_, ?_, ?_⟩
    · rw [hshape]
      simp [statusSent, recordOutcome, hp, hst]
    · rw [hshape]
      rfl
    · rw [hshape]
      rfl
    · rw [hshape]
      have hbody : bodyAllowedForStatus resp.StatusCode =
          !decide (resp.StatusCode = 204 ∨ resp.StatusCode = 304) := by
        unfold bodyAllowedForStatus
        have h100 : ¬ (100 ≤ resp.StatusCode ∧ resp.StatusCode ≤ 199) := by omega
        by_cases h204 : resp.StatusCode = 204
        · simp [h204]
        · by_cases h304 : resp.StatusCode = 304
          · simp [h304]
          · simp [h100, h204, h304]
      by_cases hno : resp.StatusCode = 204 ∨ resp.StatusCode = 304
      · simp [bodiesSent, recordOutcome, hp, hbody, hno]
      · simp [bodiesSent, recordOutcome, hp, hbody, hno]

/-- The forwarding of the backend status at a backend answering 503. -/
theorem chatCompletions_backend_status_forwarded_witness :
    statusSent (chatCompletions ⟨9091, [], false, "dm", ⟨1⟩, 300, false, true⟩
        (fun _ => some ⟨503, ⟨"data: x\n", false⟩⟩) (fun _ => "id") ⟨1, 2, 3, 4, 5, 6⟩
        ⟨"/v1/chat/completions", "ua", [], none,
          some ⟨"m", [⟨"user", "hi"⟩], false, none⟩⟩) = [503] :=
  ((chatCompletions_backend_status_forwarded ⟨9091, [], false, "dm", ⟨1⟩, 300, false, true⟩
      (fun _ => some ⟨503, ⟨"data: x\n", false⟩⟩) (fun _ => "id") ⟨1, 2, 3, 4, 5, 6⟩
      ⟨"/v1/chat/completions", "ua", [], none, some ⟨"m", [⟨"user", "hi"⟩], false, none⟩⟩
      ⟨"m", [⟨"user", "hi"⟩], false, none⟩ ⟨503, ⟨"data: x\n", false⟩⟩ rfl (by decide) rfl).2.1
      (by decide) (by decide)).2.1

/-- C18, evaluation at the failing input.  A backend answer with the 2xx status 201 is not
translated: the client is sent status 201 with the generic error body `TalkAI API error`,
201 is what is recorded, and `recordRequestStats` counts the call as successful. -/
theorem chatCompletions_status_201_is_error :
    ((200 : Int) ≤ 201 ∧ (201 : Int) < 300)
    ∧ chatCompletions ⟨9091, [], false, "dm", ⟨1⟩, 300, false, true⟩
        (fun _ => some ⟨201, ⟨"data: x\n", false⟩⟩) (fun _ => "id") ⟨1, 2, 3, 4, 5, 6⟩
        ⟨"/v1/chat/completions", "ua", [], none,
          some ⟨"m", [⟨"user", "hi"⟩], false, none⟩⟩ =
      [Call.sendToTalkAI ⟨"chat", [⟨"id", "you", "hi"⟩], ⟨"m", some ⟨1⟩⟩⟩,
        Call.JSON 201 (Body.error "TalkAI API error"),
        Call.recordRequestStats ⟨2, 3, "/v1/chat/completions", 201⟩,
        Call.addLiveRequest ⟨4, 5, "POST", "/v1/chat/completions", 201, 1, "", "ua"⟩]
    ∧ statusSent (chatCompletions ⟨9091, [], false, "dm", ⟨1⟩, 300, false, true⟩
        (fun _ => some ⟨201, ⟨"data: x\n", false⟩⟩) (fun _ => "id") ⟨1, 2, 3, 4, 5, 6⟩
        ⟨"/v1/chat/completions", "ua", [], none,
          some ⟨"m", [⟨"user", "hi"⟩], false, none⟩⟩) = [201]
    ∧ bodiesSent (chatCompletions ⟨9091, [], false, "dm", ⟨1⟩, 300, false, true⟩
        (fun _ => some ⟨201, ⟨"data: x\n", false⟩⟩) (fun _ => "id") ⟨1, 2, 3, 4, 5, 6⟩
        ⟨"/v1/chat/completions", "ua", [], none,
          some ⟨"m", [⟨"user", "hi"⟩], false, none⟩⟩) = [Body.error "TalkAI API error"]
    ∧ (runCalls ⟨statsInit, liveRequestsInit⟩
        (chatCompletions ⟨9091, [], false, "dm", ⟨1⟩, 300, false, true⟩
          (fun _ => some ⟨201, ⟨"data: x\n", false⟩⟩) (fun _ => "id") ⟨1, 2, 3, 4, 5, 6⟩
          ⟨"/v1/chat/completions", "ua", [], none,
            some ⟨"m", [⟨"user", "hi"⟩], false, none⟩⟩)).stats.SuccessfulRequests = 1 := by
  decide

theorem authenticateClient_wrong_key (K : List String) (t : String) (hK : K ≠ [])
    (ht : t ∉ K) :
    ∃ msg, authenticateClient K (some ("Bearer" ++ " " ++ t)) = Gate.abort 401 msg := by
  apply authenticateClient_abort_401
  intro hnext
  obtain ⟨u, hu, huK⟩ := (authenticateClient_next_iff_split K _ hK).1 hnext
  have hpair := ((Split_pair _ _ _ _).1 hu).1
  have hsp : String.singleton (Char.ofNat 32) = " " := by decide
  rw [hsp] at hpair
  have hdata := congrArg String.data hpair
  simp only [GetHeader, Option.getD_some, String.data_append, List.append_cancel_left_eq]
    at hdata
  have htu : t = u := String.ext hdata
  exact ht (htu ▸ huK)

/-- C19 (amended).  With a non-empty key set, a request to a `/v1` route that carries
`Authorization: Bearer t` with `t` not in the set is answered 401 with an error body by
`authenticateClient` and aborted: the route's handler does not run, neither
`recordRequestStats` nor `addLiveRequest` is called, and the statistics and the live log
are left unchanged. -/
theorem v1_wrong_key_not_recorded (K : List String) (t : String) (handler : List Call)
    (st : ServerState) (hK : K ≠ []) (ht : t ∉ K) :
    (∃ msg, v1 K (some ("Bearer" ++ " " ++ t)) handler = [Call.JSON 401 (Body.error msg)])
    ∧ statusSent (v1 K (some ("Bearer" ++ " " ++ t)) handler) = [401]
    ∧ statsRecorded (v1 K (some ("Bearer" ++ " " ++ t)) handler) = []
    ∧ logRecorded (v1 K (some ("Bearer" ++ " " ++ t)) handler) = []
    ∧ runCalls st (v1 K (some ("Bearer" ++ " " ++ t)) handler) = st := by
  obtain ⟨msg, hmsg⟩ := authenticateClient_wrong_key K t hK ht
  have hv : v1 K (some ("Bearer" ++ " " ++ t)) handler = [Call.JSON 401 (Body.error msg)] := by
    simp only [v1, hmsg]
  refine ⟨⟨msg, hv⟩, ?_, ?_, ?_, ?_⟩ <;> rw [hv] <;> rfl

/-- C19 (amended) at the key set `right-key` and the token `wrong-key`. -/
theorem v1_wrong_key_not_recorded_witness :
    (["right-key"] : List String) ≠ [] ∧ "wrong-key" ∉ (["right-key"] : List String)
    ∧ runCalls ⟨statsInit, liveRequestsInit⟩
        (v1 ["right-key"] (some ("Bearer" ++ " " ++ "wrong-key")) []) =
      ⟨statsInit, liveRequestsInit⟩ :=
  ⟨by decide, by decide,
    (v1_wrong_key_not_recorded ["right-key"] "wrong-key" [] ⟨statsInit, liveRequestsInit⟩
      (by decide) (by decide)).2.2.2.2⟩

/-- C19, the claim as written fails: a chat-completion request with
`Authorization: Bearer wrong-key` against the key set `right-key` is answered 401, but
afterwards `TotalRequests` and `FailedRequests` are still 0 and the live log is still
empty. -/
theorem v1_wrong_key_leaves_stats :
    statusSent (v1 ["right-key"] (some "Bearer wrong-key")
        (chatCompletions ⟨9091, ["right-key"], false, "dm", ⟨1⟩, 300, false, true⟩
          (fun _ => none) (fun _ => "id") ⟨1, 2, 3, 4, 5, 6⟩
          ⟨"/v1/chat/completions", "ua", [], some "Bearer wrong-key",
            some ⟨"m", [⟨"user", "hi"⟩], false, none⟩⟩)) = [401]
    ∧ (runCalls ⟨statsInit, liveRequestsInit⟩
        (v1 ["right-key"] (some "Bearer wrong-key")
          (chatCompletions ⟨9091, ["right-key"], false, "dm", ⟨1⟩, 300, false, true⟩
            (fun _ => none) (fun _ => "id") ⟨1, 2, 3, 4, 5, 6⟩
            ⟨"/v1/chat/completions", "ua", [], some "Bearer wrong-key",
              some ⟨"m", [⟨"user", "hi"⟩], false, none⟩⟩))) =
        ⟨⟨0, 0, 0, none, 0⟩, []⟩ := by
  decide

/-- C20 (amended).  When `config.APIKeys` is empty, `loadClientAPIKeys` stores one
generated default key `sk-talkai-<uuid>`, so the key set is not empty: a request with no
`Authorization` header is answered 401 `Missing authorization header` by
`authenticateClient`, and the route's handler is not reached. -/
theorem default_key_requires_authorization (uuid : String) (handler : List Call) :
    loadClientAPIKeys [] uuid validClientKeysInit = ["sk-talkai-" ++ uuid]
    ∧ authenticateClient (loadClientAPIKeys [] uuid validClientKeysInit) none =
        Gate.abort 401 "Missing authorization header"
    ∧ v1 (loadClientAPIKeys [] uuid validClientKeysInit) none handler =
        [Call.JSON 401 (Body.error "Missing authorization header")] := by
  have hk : loadClientAPIKeys [] uuid validClientKeysInit = ["sk-talkai-" ++ uuid] := by
    simp [loadClientAPIKeys, validClientKeysInit, setKey]
  have ha : authenticateClient ["sk-talkai-" ++ uuid] none =
      Gate.abort 401 "Missing authorization header" := by
    simp [authenticateClient, GetHeader]
  refine ⟨hk, ?_, ?_⟩
  · rw [hk, ha]
  · rw [hk]
    simp only [v1, ha]

/-- C20, the claim as written fails: with an empty `config.APIKeys` and the generated
identifier `u`, a request without `Authorization` header is not admitted by
`authenticateClient`; it is answered 401 and `chatCompletions` does not run. -/
theorem empty_key_list_still_rejects :
    authenticateClient (loadClientAPIKeys [] "u" validClientKeysInit) none ≠ Gate.next
    ∧ v1 (loadClientAPIKeys [] "u" validClientKeysInit) none
        (chatCompletions ⟨9091, [], false, "dm", ⟨1⟩, 300, false, true⟩
          (fun _ => none) (fun _ => "id") ⟨1, 2, 3, 4, 5, 6⟩
          ⟨"/v1/chat/completions", "ua", [], none,
            some ⟨"m", [⟨"user", "hi"⟩], false, none⟩⟩) =
      [Call.JSON 401 (Body.error "Missing authorization header")] := by
  decide

/-! ## Theorems: flushing of the stream -/

theorem eachWriteFlushed_write_flush (d : SSEData) (rest : List Output) :
    eachWriteFlushed (Output.write d :: Output.flush :: rest) = eachWriteFlushed rest := by
  simp [eachWriteFlushed]

theorem eachWriteFlushed_chunks (f : String → SSEData) (ls : List String)
    (rest : List Output) :
    eachWriteFlushed ((ls.flatMap fun l => [Output.write (f l), Output.flush]) ++ rest) =
      eachWriteFlushed rest := by
  induction ls with
  | nil => rfl
  | cons l tl ih =>
    simp only [List.flatMap_cons, List.cons_append, List.nil_append, List.append_assoc]
    rw [eachWriteFlushed_write_flush]
    exact ih

/-- The shape of the trace over the lines that the scanner delivers: every write of the
first part is flushed at once, the stop chunk and `[DONE]` share the last flush. -/
theorem streamTrace_flushes (uuid : String) (now : Int) (model : String)
    (lines : List String) :
    ∃ pre : List Output,
      streamTrace uuid now model lines =
        pre ++ [Output.write (SSEData.json (chunk uuid now model [] (some "stop"))),
          Output.write (SSEData.text "[DONE]"), Output.flush]
      ∧ eachWriteFlushed pre = true
      ∧ writes pre =
          SSEData.json (chunk uuid now model [("role", "assistant")] none)
            :: (lines.filter carriesContent).map fun l =>
              SSEData.json (chunk uuid now model [("content", payload l)] none) := by
  refine ⟨[Output.write (SSEData.json (chunk uuid now model [("role", "assistant")] none)),
      Output.flush]
      ++ ((lines.filter carriesContent).flatMap fun l =>
          [Output.write (SSEData.json (chunk uuid now model [("content", payload l)] none)),
            Output.flush]), handleStreamResponse_eq uuid now model lines, ?_, ?_⟩
  · have h := eachWriteFlushed_chunks
      (fun l => SSEData.json (chunk uuid now model [("content", payload l)] none))
      (lines.filter carriesContent) []
    rw [List.append_nil] at h
    simp only [List.cons_append, List.nil_append]
    rw [eachWriteFlushed_write_flush, h]
    rfl
  · rw [writes_append, writes_flatMap_chunks]
    rfl

/-- C21 (amended).  The trace of `handleStreamResponse` is a first part in which every
written event (the role chunk and each content chunk) is followed by a flush before the
next event is written, and then: the terminal stop chunk, directly followed by the
`[DONE]` terminator with no flush between the two, and one flush after the terminator.
This holds for every sequence of lines that the scanner delivers, hence for every
backend body. -/
theorem handleStreamResponse_flushes (uuid : String) (now : Int) (model : String)
    (lines : List String) (body : ResponseBody) :
    (∃ pre : List Output,
      streamTrace uuid now model lines =
        pre ++ [Output.write (SSEData.json (chunk uuid now model [] (some "stop"))),
          Output.write (SSEData.text "[DONE]"), Output.flush]
      ∧ eachWriteFlushed pre = true
      ∧ writes pre =
          SSEData.json (chunk uuid now model [("role", "assistant")] none)
            :: (lines.filter carriesContent).map fun l =>
              SSEData.json (chunk uuid now model [("content", payload l)] none))
    ∧ (∃ pre : List Output,
      handleStreamResponse uuid now model body =
        pre ++ [Output.write (SSEData.json (chunk uuid now model [] (some "stop"))),
          Output.write (SSEData.text "[DONE]"), Output.flush]
      ∧ eachWriteFlushed pre = true
      ∧ writes pre =
          SSEData.json (chunk uuid now model [("role", "assistant")] none)
            :: ((scanLines body).filter carriesContent).map fun l =>
              SSEData.json (chunk uuid now model [("content", payload l)] none)) :=
  ⟨streamTrace_flushes uuid now model lines, streamTrace_flushes uuid now model (scanLines body)⟩

/-- C21, the claim as written fails: in the trace for the body with the single line
`data: A` the stop chunk is followed directly by the `[DONE]` write, with no flush
between them, so not every written event is followed by a flush before the next one. -/
theorem handleStreamResponse_stop_not_flushed :
    handleStreamResponse "u" 7 "m" ⟨"data: A\n", false⟩ =
      [Output.write (SSEData.json (chunk "u" 7 "m" [("role", "assistant")] none)), Output.flush,
        Output.write (SSEData.json (chunk "u" 7 "m" [("content", "A")] none)), Output.flush,
        Output.write (SSEData.json (chunk "u" 7 "m" [] (some "stop"))),
        Output.write (SSEData.text "[DONE]"), Output.flush]
    ∧ eachWriteFlushed (handleStreamResponse "u" 7 "m" ⟨"data: A\n", false⟩) = false := by
  decide

/-! ## Theorems: delivered fragments -/

theorem head?_of_prefix_ne_nil {α : Type} (a b : List α) (h : a <+: b) (hne : a ≠ []) :
    a.head? = b.head? := by
  obtain ⟨t, ht⟩ := h
  subst ht
  cases a with
  | nil => exact absurd rfl hne
  | cons x xs => rfl

/-- `strings.TrimSpace` leaves no white space at either end. -/
theorem TrimSpace_noOuterSpace (s : String) : noOuterSpace (TrimSpace s) = true := by
  have hfirst : ∀ c, (TrimSpace s).data.head? = some c → isSpace c = false := by
    intro c hc
    unfold TrimSpace at hc
    simp only at hc
    by_cases hne : ((s.data.dropWhile isSpace).reverse.dropWhile isSpace).reverse = []
    · rw [hne] at hc
      cases hc
    · have hpre : ((s.data.dropWhile isSpace).reverse.dropWhile isSpace).reverse
          <+: s.data.dropWhile isSpace := by
        have h1 := List.dropWhile_suffix (l := (s.data.dropWhile isSpace).reverse) isSpace
        have h2 := List.reverse_prefix.mpr h1
        rwa [List.reverse_reverse] at h2
      rw [head?_of_prefix_ne_nil _ _ hpre hne] at hc
      have h3 := List.head?_dropWhile_not isSpace s.data
      rw [hc] at h3
      simpa using h3
  have hlast : ∀ c, (TrimSpace s).data.getLast? = some c → isSpace c = false := by
    intro c hc
    unfold TrimSpace at hc
    simp only [List.getLast?_reverse] at hc
    have h3 := List.head?_dropWhile_not isSpace (s.data.dropWhile isSpace).reverse
    rw [hc] at h3
    simpa using h3
  unfold noOuterSpace
  rw [Bool.and_eq_true]
  constructor
  · cases h : (TrimSpace s).data.head? with
    | none => rfl
    | some c => simp [hfirst c h]
  · cases h : (TrimSpace s).data.getLast? with
    | none => rfl
    | some c => simp [hlast c h]

theorem payload_of_carriesContent (l : String) (h : carriesContent l = true) :
    payload l ≠ "" ∧ payload l ≠ "-1" ∧ noOuterSpace (payload l) = true := by
  simp only [carriesContent, Bool.and_eq_true, decide_eq_true_eq] at h
  exact ⟨h.1.2, h.2, TrimSpace_noOuterSpace _⟩

theorem deltaContents_streamTrace_trimmed (uuid : String) (now : Int) (model : String)
    (lines : List String) :
    (∀ x ∈ deltaContents (streamTrace uuid now model lines),
        x ≠ "" ∧ x ≠ "-1" ∧ noOuterSpace x = true)
    ∧ aggregateLines lines =
        String.join (deltaContents (streamTrace uuid now model lines)) := by
  have hd := deltaContents_handleStreamResponse uuid now model lines
  refine ⟨?_, ?_⟩
  · intro x hx
    rw [hd, List.mem_map] at hx
    obtain ⟨l, hl, rfl⟩ := hx
    exact payload_of_carriesContent l (List.mem_filter.mp hl).2
  · rw [hd, aggregateLines, foldl_aggregateLine, String.empty_append]

/-- C22.  Every content delta emitted by `handleStreamResponse` and every fragment
concatenated by `aggregateStreamContent` (the two lists of fragments are the same list)
is non-empty, differs from the sentinel `-1`, and has no white space at its start or end;
so white space at the ends of a backend payload is never delivered: the lines
`data: Hello ` and `data: world` aggregate to `Helloworld`.  This holds for every
sequence of lines that the scanner delivers, hence for every backend body. -/
theorem delivered_fragments_trimmed (uuid : String) (now : Int) (model : String)
    (lines : List String) (body : ResponseBody) :
    (∀ x ∈ deltaContents (streamTrace uuid now model lines),
        x ≠ "" ∧ x ≠ "-1" ∧ noOuterSpace x = true)
    ∧ aggregateLines lines =
        String.join (deltaContents (streamTrace uuid now model lines))
    ∧ aggregateLines ["data: Hello ", "data: world"] = "Helloworld"
    ∧ (∀ x ∈ deltaContents (handleStreamResponse uuid now model body),
        x ≠ "" ∧ x ≠ "-1" ∧ noOuterSpace x = true)
    ∧ aggregateStreamContent body =
        String.join (deltaContents (handleStreamResponse uuid now model body))
    ∧ aggregateStreamContent ⟨"data: Hello \ndata: world\n", false⟩ = "Helloworld" :=
  ⟨(deltaContents_streamTrace_trimmed uuid now model lines).1,
    (deltaContents_streamTrace_trimmed uuid now model lines).2, by decide,
    (deltaContents_streamTrace_trimmed uuid now model (scanLines body)).1,
    (deltaContents_streamTrace_trimmed uuid now model (scanLines body)).2, by decide⟩

/-- C22 at the body with the lines `data: Hello ` and `data: world` and the delta
`Hello`. -/
theorem delivered_fragments_trimmed_witness :
    "Hello" ∈ deltaContents
        (handleStreamResponse "u" 7 "m" ⟨"data: Hello \ndata: world\n", false⟩)
    ∧ ("Hello" : String) ≠ "" ∧ ("Hello" : String) ≠ "-1" ∧ noOuterSpace "Hello" = true :=
  ⟨by decide,
    (delivered_fragments_trimmed "u" 7 "m" ["data: Hello ", "data: world"]
      ⟨"data: Hello \ndata: world\n", false⟩).2.2.2.1 "Hello" (by decide)⟩

/-! ## Theorems: accuracy of the running average -/

theorem recordRequests_concat (stats : RequestStats) (l : List StatsCall) (c : StatsCall) :
    recordRequests stats (l ++ [c]) =
      recordRequestStats (recordRequests stats l) c.since c.now c.path c.status := by
  simp [recordRequests, List.foldl_append]

theorem recordRequests_total (calls : List StatsCall) :
    ∀ stats : RequestStats,
      (recordRequests stats calls).TotalRequests = stats.TotalRequests + calls.length := by
  induction calls with
  | nil => intro stats; simp [recordRequests]
  | cons c rest ih =>
    intro stats
    have hstep : recordRequests stats (c :: rest) =
        recordRequests (recordRequestStats stats c.since c.now c.path c.status) rest := rfl
    rw [hstep, ih, recordRequestStats_total, List.length_cons]
    push_cast
    ring

theorem totalSince_concat (l : List StatsCall) (c : StatsCall) :
    totalSince (l ++ [c]) = totalSince l + c.since := by
  simp [totalSince]

/-- When all recorded durations are `d`, the running average times the number of calls is
`d` times that number (so the average is `d` after at least one call). -/
theorem recordRequests_constant (d : Int) (hd : 0 ≤ d) (calls : List StatsCall) :
    (∀ c ∈ calls, c.since = d) → d * (calls.length : Int) < 9223372036854775808 →
    (recordRequests statsInit calls).AverageResponseTime * (calls.length : Int)
      = d * (calls.length : Int) := by
  induction calls using List.reverseRecOn with
  | nil => intro _ _; simp
  | append_singleton l c ih =>
    intro hall hfit
    have hc : c.since = d := hall c (by simp)
    have hl : ∀ x ∈ l, x.since = d := fun x hx => hall x (by simp [hx])
    have hlen : ((l ++ [c]).length : Int) = (l.length : Int) + 1 := by simp
    rw [hlen] at hfit ⊢
    have hn : (0 : Int) ≤ (l.length : Int) := Int.ofNat_nonneg _
    have hdl : 0 ≤ d * (l.length : Int) := Int.mul_nonneg hd hn
    have hexp : d * ((l.length : Int) + 1) = d * (l.length : Int) + d := by ring
    have ih2 := ih hl (by rw [hexp] at hfit; omega)
    have htot : (recordRequests statsInit l).TotalRequests = (l.length : Int) := by
      rw [recordRequests_total]
      simp [statsInit]
    rw [recordRequests_concat,
      recordRequestStats_average _ _ _ _ _ (by rw [htot]; exact hn), htot, ih2, hc,
      wrap64_of_range _ hdl (by rw [hexp] at hfit; omega), ← hexp,
      wrap64_of_range _ (by rw [hexp]; omega) hfit,
      Int.tdiv_eq_ediv (by rw [hexp]; omega) (by omega),
      Int.mul_ediv_cancel _ (by omega)]

/-- When the `k`-th recorded duration is `k - 1` nanoseconds, the running average stays 0
and the sum of durations is `N (N - 1) / 2`. -/
theorem recordRequests_ramp (calls : List StatsCall) :
    (∀ (i : Nat) (c : StatsCall), calls[i]? = some c → c.since = (i : Int)) →
    (calls.length : Int) ≤ 9223372036854775808 →
    (recordRequests statsInit calls).AverageResponseTime = 0
    ∧ 2 * totalSince calls = (calls.length : Int) * ((calls.length : Int) - 1) := by
  induction calls using List.reverseRecOn with
  | nil => intro _ _; exact ⟨rfl, rfl⟩
  | append_singleton l c ih =>
    intro hall hfit
    have hc : c.since = (l.length : Int) := hall l.length c (by simp)
    have hl : ∀ (i : Nat) (x : StatsCall), l[i]? = some x → x.since = (i : Int) := by
      intro i x hx
      apply hall i x
      have hi : i < l.length := by
        by_contra hcon
        rw [List.getElem?_eq_none (by omega)] at hx
        cases hx
      rw [List.getElem?_append_left hi]
      exact hx
    have hlen : ((l ++ [c]).length : Int) = (l.length : Int) + 1 := by simp
    rw [hlen] at hfit ⊢
    have hn : (0 : Int) ≤ (l.length : Int) := Int.ofNat_nonneg _
    obtain ⟨ih1, ih2⟩ := ih hl (by omega)
    have htot : (recordRequests statsInit l).TotalRequests = (l.length : Int) := by
      rw [recordRequests_total]
      simp [statsInit]
    constructor
    · rw [recordRequests_concat,
        recordRequestStats_average _ _ _ _ _ (by rw [htot]; exact hn), htot, ih1, hc,
        Int.zero_mul, wrap64_of_range 0 (by decide) (by decide), Int.zero_add,
        wrap64_of_range _ hn (by omega), Int.tdiv_eq_ediv hn (by omega)]
      exact Int.ediv_eq_zero_of_lt hn (by omega)
    · rw [totalSince_concat, hc, mul_add, ih2]
      ring

theorem totalSince_constant (d : Int) (calls : List StatsCall)
    (h : ∀ c ∈ calls, c.since = d) : totalSince calls = d * (calls.length : Int) := by
  induction calls with
  | nil => simp [totalSince]
  | cons c rest ih =>
    rw [totalSince_cons, h c (List.mem_cons_self c rest),
      ih fun x hx => h x (List.mem_cons_of_mem c hx), List.length_cons]
    push_cast
    ring

/-- C23.  Starting from zero-valued statistics, after `N ≥ 1` calls of
`recordRequestStats` with non-negative durations whose sum fits in 63 bits (no 64-bit
overflow), the stored `AverageResponseTime` `a` never exceeds the exact mean
(`a * N ≤ sum`) and satisfies `N * a ≥ sum - N (N - 1) / 2`; it equals the duration when
`N = 1` and equals `d` when all durations equal `d`; and the bound is attained: when the
`k`-th duration is `k - 1` the stored average is 0 and the sum is `N (N - 1) / 2`. -/
theorem average_undershoot (calls : List StatsCall) (hne : calls ≠ [])
    (hpos : ∀ c ∈ calls, 0 ≤ c.since) (hfit : totalSince calls < 9223372036854775808) :
    (recordRequests statsInit calls).AverageResponseTime * (calls.length : Int)
        ≤ totalSince calls
    ∧ totalSince calls - (calls.length : Int) * ((calls.length : Int) - 1) / 2
        ≤ (calls.length : Int) * (recordRequests statsInit calls).AverageResponseTime
    ∧ (∀ c : StatsCall, calls = [c] →
        (recordRequests statsInit calls).AverageResponseTime = c.since)
    ∧ (∀ d : Int, (∀ c ∈ calls, c.since = d) →
        (recordRequests statsInit calls).AverageResponseTime = d)
    ∧ (∀ ramp : List StatsCall,
        (∀ (i : Nat) (c : StatsCall), ramp[i]? = some c → c.since = (i : Int)) →
        (ramp.length : Int) ≤ 9223372036854775808 →
        (recordRequests statsInit ramp).AverageResponseTime = 0
        ∧ 2 * totalSince ramp = (ramp.length : Int) * ((ramp.length : Int) - 1)) := by
  obtain ⟨r0, _, r2, r3⟩ :=
    recordRequests_average_bounds calls statsInit 0 (by decide) (by decide) (by decide)
      (by decide) hpos (by omega)
  have hN : (recordRequests statsInit calls).TotalRequests = (calls.length : Int) := by
    rw [r0]
    simp [statsInit]
  rw [hN, Int.zero_add] at r2 r3
  have hlen : 0 < calls.length := List.length_pos.mpr hne
  have hlenZ : (0 : Int) < (calls.length : Int) := by exact_mod_cast hlen
  refine ⟨r2, ?_, ?_, ?_, recordRequests_ramp⟩
  · have heven : (calls.length : Int) * ((calls.length : Int) - 1) % 2 = 0 := by
      have h := Int.even_mul_succ_self ((calls.length : Int) - 1)
      rw [sub_add_cancel, mul_comm] at h
      exact Int.even_iff.mp h
    rw [mul_comm (calls.length : Int) (recordRequests statsInit calls).AverageResponseTime]
    generalize (recordRequests statsInit calls).AverageResponseTime * (calls.length : Int) = Q
      at r2 r3 ⊢
    generalize (calls.length : Int) * ((calls.length : Int) - 1) = E at r3 heven ⊢
    omega
  · intro c hc
    subst hc
    simp only [List.length_singleton, Nat.cast_one, mul_one, sub_self, mul_zero, add_zero,
      totalSince, List.map_cons, List.map_nil, List.sum_cons, List.sum_nil] at r2 r3
    omega
  · intro d hall
    obtain ⟨c0, hc0⟩ := List.exists_mem_of_ne_nil calls hne
    have hd : 0 ≤ d := by
      rw [← hall c0 hc0]
      exact hpos c0 hc0
    have hsum := totalSince_constant d calls hall
    have hconst := recordRequests_constant d hd calls hall (by rw [← hsum]; exact hfit)
    exact Int.eq_of_mul_eq_mul_right (by omega) hconst

/-- C23 at the three durations 7, 7, 7. -/
theorem average_undershoot_witness :
    ([⟨7, 5, "/v1/chat/completions", 200⟩, ⟨7, 6, "/v1/chat/completions", 500⟩,
        ⟨7, 8, "/v1/chat/completions", 200⟩] : List StatsCall) ≠ []
    ∧ (∀ c ∈ ([⟨7, 5, "/v1/chat/completions", 200⟩, ⟨7, 6, "/v1/chat/completions", 500⟩,
        ⟨7, 8, "/v1/chat/completions", 200⟩] : List StatsCall), 0 ≤ c.since)
    ∧ totalSince [⟨7, 5, "/v1/chat/completions", 200⟩, ⟨7, 6, "/v1/chat/completions", 500⟩,
        ⟨7, 8, "/v1/chat/completions", 200⟩] < 9223372036854775808
    ∧ (recordRequests statsInit
        [⟨7, 5, "/v1/chat/completions", 200⟩, ⟨7, 6, "/v1/chat/completions", 500⟩,
          ⟨7, 8, "/v1/chat/completions", 200⟩]).AverageResponseTime = 7 :=
  ⟨by decide, by decide, by decide,
    (average_undershoot
      [⟨7, 5, "/v1/chat/completions", 200⟩, ⟨7, 6, "/v1/chat/completions", 500⟩,
        ⟨7, 8, "/v1/chat/completions", 200⟩]
      (by decide) (by decide) (by decide)).2.2.2.1 7 (by decide)⟩

/-! ## Theorems: the token limit of the scanner -/

theorem splitChars_append_sep (sep : Char) (a rest : List Char) (h : sep ∉ a) :
    splitChars sep (a ++ sep :: rest) = a :: splitChars sep rest := by
  induction a with
  | nil => simp [splitChars]
  | cons x xs ih =>
    simp only [List.mem_cons, not_or] at h
    have hx : x ≠ sep := fun e => h.1 e.symm
    have e : splitChars sep ((x :: xs) ++ sep :: rest) =
        (match splitChars sep (xs ++ sep :: rest) with
          | [] => [[x]]
          | p :: ps => (x :: p) :: ps) := by
      simp only [List.cons_append, splitChars, hx, if_false]
      rfl
    rw [e, ih h.2]

theorem scanSegments_cons_short (eof : Bool) (seg : List Char) (rest : List (List Char))
    (hrest : rest ≠ []) (h : byteLen seg < MaxScanTokenSize) :
    scanSegments eof (seg :: rest) = dropCR seg :: scanSegments eof rest := by
  cases rest with
  | nil => exact absurd rfl hrest
  | cons r rs => simp only [scanSegments, h, if_true]

theorem scanSegments_cons_long (eof : Bool) (seg : List Char) (rest : List (List Char))
    (hrest : rest ≠ []) (h : MaxScanTokenSize ≤ byteLen seg) :
    scanSegments eof (seg :: rest) = [] := by
  have hn : ¬ byteLen seg < MaxScanTokenSize := by omega
  cases rest with
  | nil => exact absurd rfl hrest
  | cons r rs => simp only [scanSegments, hn, if_false]

theorem byteLen_append (a b : List Char) : byteLen (a ++ b) = byteLen a + byteLen b := by
  simp [byteLen]

theorem byteLen_replicate (n : Nat) (c : Char) :
    byteLen (List.replicate n c) = n * c.utf8Size := by
  induction n with
  | zero => simp [byteLen]
  | succ k ih =>
    rw [List.replicate_succ]
    have : byteLen (c :: List.replicate k c) = c.utf8Size + byteLen (List.replicate k c) := by
      simp [byteLen]
    rw [this, ih]
    ring

/-- A line that does not fit the scanner's buffer ends the scan: the lines after a first
line `first` and an over-long newline-terminated line are never delivered. -/
theorem scanLines_long_line (eof : Bool) (first long rest : List Char)
    (hfirst : Char.ofNat 10 ∉ first) (hfit : byteLen first < MaxScanTokenSize)
    (hlong : Char.ofNat 10 ∉ long) (hbig : MaxScanTokenSize ≤ byteLen long) :
    scanLines ⟨String.mk (first ++ Char.ofNat 10 :: (long ++ Char.ofNat 10 :: rest)), eof⟩ =
      [String.mk (dropCR first)] := by
  simp only [scanLines]
  rw [splitChars_append_sep _ _ _ hfirst, splitChars_append_sep _ _ _ hlong,
    scanSegments_cons_short _ _ _ (by simp) hfit,
    scanSegments_cons_long _ _ _ (splitChars_ne_nil _ _) hbig]
  rfl

/-- The body `data: A`, newline, `data:` followed by `n` letters `x`, newline, `data: B`,
newline: when the second line has 65536 bytes or more, the scanner delivers the first
line only. -/
theorem scanLines_long_body (eof : Bool) (n : Nat) (hn : 65531 ≤ n) :
    scanLines ⟨"data: A\ndata:" ++ String.mk (List.replicate n (Char.ofNat 120))
        ++ "\ndata: B\n", eof⟩ = ["data: A"] := by
  have hbody : ("data: A\ndata:" ++ String.mk (List.replicate n (Char.ofNat 120))
        ++ "\ndata: B\n" : String) =
      String.mk ("data: A".data ++ Char.ofNat 10 ::
        (("data:".data ++ List.replicate n (Char.ofNat 120))
          ++ Char.ofNat 10 :: "data: B\n".data)) := by
    apply String.ext
    rw [String.data_append, String.data_append]
    rfl
  rw [hbody]
  have hx : (Char.ofNat 120).utf8Size = 1 := by decide
  have h5 : byteLen "data:".data = 5 := by decide
  rw [scanLines_long_line eof "data: A".data _ "data: B\n".data (by decide) (by decide)]
  · decide
  · intro hmem
    rcases List.mem_append.mp hmem with h | h
    · exact absurd h (by decide)
    · exact absurd (List.eq_of_mem_replicate h) (by decide)
  · rw [byteLen_append, byteLen_replicate, hx, h5]
    simp only [MaxScanTokenSize]
    omega

theorem aggregateStreamContent_long_body (eof : Bool) (n : Nat) (hn : 65531 ≤ n) :
    aggregateStreamContent ⟨"data: A\ndata:" ++ String.mk (List.replicate n (Char.ofNat 120))
        ++ "\ndata: B\n", eof⟩ = "A" := by
  rw [aggregateStreamContent, scanLines_long_body eof n hn]
  decide

theorem handleStreamResponse_long_body (eof : Bool) (n : Nat) (hn : 65531 ≤ n) :
    writes (handleStreamResponse "u" 7 "m"
        ⟨"data: A\ndata:" ++ String.mk (List.replicate n (Char.ofNat 120))
          ++ "\ndata: B\n", eof⟩) =
      [SSEData.json (chunk "u" 7 "m" [("role", "assistant")] none),
        SSEData.json (chunk "u" 7 "m" [("content", "A")] none),
        SSEData.json (chunk "u" 7 "m" [] (some "stop")), SSEData.text "[DONE]"] := by
  rw [handleStreamResponse, scanLines_long_body eof n hn]
  decide

/-- C4, evaluation at the failing input.  For the body `data: A`, newline, `data:` followed
by 70000 letters `x`, newline, `data: B`, newline, `aggregateStreamContent` returns `A`:
the scanner stops at the second line, which does not fit its buffer, and neither that
line nor `data: B` contributes, although both start with `data:` and have a payload that
is neither empty nor `-1`. -/
theorem aggregateStreamContent_drops_after_long_line :
    aggregateStreamContent
        ⟨"data: A\ndata:" ++ String.mk (List.replicate 70000 (Char.ofNat 120))
          ++ "\ndata: B\n", false⟩ = "A" :=
  aggregateStreamContent_long_body false 70000 (by decide)

/-- C5, evaluation at the failing input.  For the body `data: A`, newline, `data:` followed
by 70000 letters `x`, newline, `data: B`, newline, `handleStreamResponse` writes the role
chunk, the chunk for `A`, the stop chunk and `[DONE]`: the scanner stops at the second
line, which does not fit its buffer, and no chunk is written for that line or for
`data: B`. -/
theorem handleStreamResponse_stops_at_long_line :
    writes (handleStreamResponse "u" 7 "m"
        ⟨"data: A\ndata:" ++ String.mk (List.replicate 70000 (Char.ofNat 120))
          ++ "\ndata: B\n", false⟩) =
      [SSEData.json (chunk "u" 7 "m" [("role", "assistant")] none),
        SSEData.json (chunk "u" 7 "m" [("content", "A")] none),
        SSEData.json (chunk "u" 7 "m" [] (some "stop")), SSEData.text "[DONE]"] :=
  handleStreamResponse_long_body false 70000 (by decide)


/-- When every newline-separated segment of the body fits the buffer, the scanner delivers
all lines of the body: every segment, without the empty one after a final newline. -/
theorem scanSegments_all_short (eof : Bool) (segs : List (List Char))
    (h : ∀ seg ∈ segs, byteLen seg < MaxScanTokenSize) :
    scanSegments eof segs =
      (if segs.getLast? = some [] then segs.dropLast else segs).map dropCR := by
  induction segs with
  | nil => rfl
  | cons seg rest ih =>
    cases rest with
    | nil =>
      have hs := h seg (List.mem_singleton.mpr rfl)
      by_cases he : seg = []
      · subst he
        simp [scanSegments]
      · simp [scanSegments, he, hs]
    | cons r rs =>
      have hs := h seg (List.mem_cons_self _ _)
      have ih2 := ih fun x hx => h x (List.mem_cons_of_mem _ hx)
      rw [scanSegments_cons_short eof seg (r :: rs) (by simp) hs, ih2]
      have hl : (seg :: r :: rs).getLast? = (r :: rs).getLast? := by
        simp [List.getLast?_cons_cons]
      rw [hl]
      by_cases hlast : (r :: rs).getLast? = some []
      · simp [hlast, List.dropLast]
      · simp [hlast]

/-! ## Evaluations of the embedding at concrete inputs -/

theorem aggregateStreamContent_trims_fragments :
    aggregateStreamContent ⟨"data: Hello \r\ndata: world\nevent: x\n\ndata:-1", false⟩
      = "Helloworld" := by
  decide

theorem scanLines_samples :
    scanLines ⟨"data: A\r\ndata: B\n\nx", false⟩ = ["data: A", "data: B", "", "x"]
    ∧ scanLines ⟨"", false⟩ = []
    ∧ scanLines ⟨"\n", true⟩ = [""]
    ∧ scanLines ⟨"a\n", true⟩ = ["a"]
    ∧ byteLen "é€x".data = 6 := by
  decide

theorem handleStreamResponse_sample_trace :
    handleStreamResponse "u" 7 "m" ⟨"data: A\ndata: -1\nping\ndata: B\n", true⟩ =
      [Output.write (SSEData.json (chunk "u" 7 "m" [("role", "assistant")] none)), Output.flush,
        Output.write (SSEData.json (chunk "u" 7 "m" [("content", "A")] none)), Output.flush,
        Output.write (SSEData.json (chunk "u" 7 "m" [("content", "B")] none)), Output.flush,
        Output.write (SSEData.json (chunk "u" 7 "m" [] (some "stop"))),
        Output.write (SSEData.text "[DONE]"), Output.flush] := by
  decide

theorem Split_samples :
    Split "Bearer k" (Char.ofNat 32) = ["Bearer", "k"]
    ∧ Split "" (Char.ofNat 32) = [""]
    ∧ Split "a  b " (Char.ofNat 32) = ["a", "", "b", ""] := by
  decide

theorem authenticateClient_samples :
    authenticateClient ["k"] (some "Bearer k") = Gate.next
    ∧ authenticateClient ["k"] (some "Bearer  k") = Gate.abort 401 "Invalid authorization format"
    ∧ authenticateClient ["k"] (some "bearer k") = Gate.abort 401 "Invalid authorization format"
    ∧ authenticateClient ["k"] none = Gate.abort 401 "Missing authorization header"
    ∧ authenticateClient ["k"] (some "Bearer x") = Gate.abort 401 "Invalid API key"
    ∧ authenticateClient [] none = Gate.next := by
  decide

theorem messagesHistory_samples :
    messagesHistory (fun _ => "id") [⟨"system", "S"⟩, ⟨"user", "U"⟩]
      = [⟨"id", "you", "S\n\nU"⟩]
    ∧ messagesHistory (fun _ => "id") [⟨"user", "U"⟩, ⟨"system", "S"⟩, ⟨"assistant", "A"⟩]
      = [⟨"id", "you", "U"⟩, ⟨"id", "assistant", "A"⟩]
    ∧ messagesHistory (fun _ => "id") [⟨"system", "S"⟩, ⟨"system", "T"⟩, ⟨"user", "U"⟩]
      = [⟨"id", "you", "T\n\nU"⟩] := by
  decide

theorem recordRequests_samples :
    recordRequests statsInit
        [⟨10, 5, "/v1/chat/completions", 200⟩, ⟨21, 6, "/v1/chat/completions", 500⟩,
          ⟨5, 7, "/v1/chat/completions", 299⟩] = ⟨3, 2, 1, some 7, 11⟩
    ∧ wrap64 9223372036854775808 = -9223372036854775808
    ∧ wrap64 (-1) = -1 := by
  decide

theorem loadClientAPIKeys_samples :
    loadClientAPIKeys [] "u" validClientKeysInit = ["sk-talkai-u"]
    ∧ loadClientAPIKeys ["a", "", "b", "a"] "u" validClientKeysInit = ["a", "b"]
    ∧ loadClientAPIKeys ["", ""] "u" validClientKeysInit = [] := by
  decide

theorem chatCompletions_samples :
    chatCompletions ⟨9091, [], true, "dm", ⟨1⟩, 300, false, true⟩
        (fun _ => some ⟨200, ⟨"data: A\ndata: B\n", false⟩⟩) (fun _ => "id") ⟨1, 2, 3, 4, 5, 6⟩
        ⟨"/v1/chat/completions", "ua", [("stream", ["0"])], none,
          some ⟨"", [⟨"user", "hi"⟩], false, none⟩⟩ =
      [Call.sendToTalkAI ⟨"chat", [⟨"id", "you", "hi"⟩], ⟨"dm", some ⟨1⟩⟩⟩,
        Call.JSON 200 (Body.completion
          ⟨"chatcmpl-id", "chat.completion", 6, "dm",
            [⟨⟨"assistant", "AB"⟩, 0, "stop"⟩],
            [("prompt_tokens", 0), ("completion_tokens", 0), ("total_tokens", 0)]⟩),
        Call.recordRequestStats ⟨2, 3, "/v1/chat/completions", 200⟩,
        Call.addLiveRequest ⟨4, 5, "POST", "/v1/chat/completions", 200, 1, "", "ua"⟩]
    ∧ chatCompletions ⟨9091, [], true, "dm", ⟨1⟩, 300, false, true⟩
        (fun _ => none) (fun _ => "id") ⟨1, 2, 3, 4, 5, 6⟩
        ⟨"/v1/chat/completions", "ua", [], none, none⟩ =
      [Call.JSON 400 (Body.error "Invalid request body"),
        Call.recordRequestStats ⟨2, 3, "/v1/chat/completions", 400⟩,
        Call.addLiveRequest ⟨4, 5, "POST", "/v1/chat/completions", 400, 1, "", "ua"⟩] := by
  decide

end CtoAPi
